import Mathlib

/-!
Verification of the Talkrix campaign scheduler and call-slot orchestrator.

This file gives a shallow embedding of the campaign-scheduler subsystem
(`campaign-scheduler.service.ts`, `campaign.service.ts`,
`webhook.controller.ts`, `ultravox.service.ts`) and proves or refutes the
frozen specification claims against it.

Modelling conventions:
* All instants and durations are integers measured in seconds.  A wall-clock
  datetime built by the JS `new Date(year, month, day, h, m)` constructor is
  represented as `day * 86400 + h * 3600 + m * 60` for an abstract calendar
  day index `day`; `setDate(getDate() + 1)` is `+ 86400`.  The source
  compares such datetimes with `getTime()`, which this encoding preserves.
* Mongoose `findOneAndUpdate` updates the first matching document; the
  positional operator `contacts.$` updates the first matching array entry.
  Both are modelled by `updateFirstWhere`.
* JS `Map` set/delete are modelled on association lists by
  `trackerSet`/`trackerDelete` (set replaces an existing key).
* Truthiness tests on numbers/strings (`if (callData?.callDuration)`,
  `|| 1`, …) are modelled explicitly (`≠ 0`, `≠ ""`).
-/

namespace Talkrix

/-! ## Time-window evaluator (campaign-scheduler.service.ts 179-326) -/

/-- An HH:MM time of day, from the `"HH:mm"` strings in the schedule. -/
structure HM where
  h : Int
  m : Int
deriving DecidableEq, Repr

/-- Seconds offset of an HH:MM time within its day. -/
def HM.toSec (t : HM) : Int := t.h * 3600 + t.m * 60

/-- `CampaignSchedule` (campaign.schema.ts): `scheduledDate` is kept as the
UTC calendar-day index that `shouldStartCampaign` extracts with
`getUTCFullYear/getUTCMonth/getUTCDate`; `endTime` is optional because the
evaluators guard on its presence. -/
structure CampaignSchedule where
  scheduledDateDay : Int
  scheduledTime : HM
  endTime : Option HM
  timezone : String
deriving DecidableEq, Repr

/-- `new Date(year, month, day, h, m, 0, 0)` as seconds. -/
def mkInstant (day : Int) (t : HM) : Int := day * 86400 + t.toSec

/-- `shouldStartCampaign` (lines 179-239), taking the already-computed
wall-clock time in the campaign's timezone.  `30 * 60 * 1000` ms is 1800 s. -/
def shouldStartCampaign (sched : CampaignSchedule) (nowInTimezone : Int) : Bool :=
  let scheduledDateTime := mkInstant sched.scheduledDateDay sched.scheduledTime
  let timeDiffFromStart := nowInTimezone - scheduledDateTime
  let isBeforeEndTime :=
    match sched.endTime with
    | none => true
    | some e =>
        let e0 := mkInstant sched.scheduledDateDay e
        let endDateTime := if e0 < scheduledDateTime then e0 + 86400 else e0
        decide (nowInTimezone < endDateTime)
  let hasReachedStartTime := decide (0 ≤ timeDiffFromStart)
  let withinStartWindow := decide (timeDiffFromStart < 1800)
  hasReachedStartTime && withinStartWindow && isBeforeEndTime

/-- `shouldStopCampaign` (lines 244-282): no end time means never stop. -/
def shouldStopCampaign (sched : CampaignSchedule) (nowInTimezone : Int) : Bool :=
  match sched.endTime with
  | none => false
  | some e =>
      let scheduledDateTime := mkInstant sched.scheduledDateDay sched.scheduledTime
      let e0 := mkInstant sched.scheduledDateDay e
      let endDateTime := if e0 < scheduledDateTime then e0 + 86400 else e0
      decide (endDateTime ≤ nowInTimezone)

/-- The external time oracle for `getCurrentTimeInTimezone` (lines 288-326):
`tzNow tz` is the wall-clock reading `Intl.DateTimeFormat` produces for a
valid IANA zone (`none` when the zone name is invalid and the formatter
throws); `serverNow` is the wall-clock reading of a plain `new Date()` in the
server's local zone; `utcNow` is the wall-clock reading in UTC. -/
structure TimeEnv where
  tzNow : String → Option Int
  serverNow : Int
  utcNow : Int

/-- The value returned by `getCurrentTimeInTimezone` together with whether
the invalid-timezone warning branch was taken. -/
structure TzResult where
  time : Int
  warned : Bool
deriving DecidableEq, Repr

/-- `getCurrentTimeInTimezone` (lines 288-326): a valid timezone yields the
zone's wall-clock time; the catch branch logs a warning and returns
`new Date()`, i.e. the server's local wall-clock time. -/
def getCurrentTimeInTimezone (env : TimeEnv) (timezone : String) : TzResult :=
  match env.tzNow timezone with
  | some t => ⟨t, false⟩
  | none => ⟨env.serverNow, true⟩

/-- `shouldStartCampaign` with `now` obtained through
`getCurrentTimeInTimezone`, as the scheduler calls it (line 191). -/
def shouldStartCampaignAt (env : TimeEnv) (sched : CampaignSchedule) : Bool :=
  shouldStartCampaign sched (getCurrentTimeInTimezone env sched.timezone).time

/-- `shouldStopCampaign` with `now` obtained through
`getCurrentTimeInTimezone` (line 254). -/
def shouldStopCampaignAt (env : TimeEnv) (sched : CampaignSchedule) : Bool :=
  shouldStopCampaign sched (getCurrentTimeInTimezone env sched.timezone).time

/-- `canResumeCampaignInWindow` (lines 1031-1074), taking the already-read
wall-clock time in the campaign's timezone.  Unlike `shouldStartCampaign`
it anchors the window to *today's* date (`today = nowInTimezone`,
lines 1056-1058), not the stored `scheduledDate`; a missing `endTime`
returns `false` (line 1045), and the end time rolls past midnight when it
precedes the start (lines 1060-1063).  The guard on a missing
`scheduledDate`/`scheduledTime` (line 1036) is vacuous here because the
schedule record keeps both fields. -/
def canResumeCampaignInWindow (sched : CampaignSchedule) (nowInTimezone : Int) : Bool :=
  match sched.endTime with
  | none => false
  | some e =>
      let today := Int.fdiv nowInTimezone 86400
      let startDateTime := mkInstant today sched.scheduledTime
      let e0 := mkInstant today e
      let endDateTime := if e0 < startDateTime then e0 + 86400 else e0
      decide (startDateTime ≤ nowInTimezone) && decide (nowInTimezone < endDateTime)

/-- `canResumeCampaignInWindow` with `now` obtained through
`getCurrentTimeInTimezone` (line 1048); the `timezone || 'UTC'` defaulting
of line 1040 is shared with lines 185 and 249 and is absorbed, as for the
other two evaluators, into the oracle's keying. -/
def canResumeCampaignInWindowAt (env : TimeEnv) (sched : CampaignSchedule) : Bool :=
  canResumeCampaignInWindow sched (getCurrentTimeInTimezone env sched.timezone).time

/-- The spec's window start `S`: `scheduledDate` combined with
`scheduledTime`. -/
def windowStart (sched : CampaignSchedule) : Int :=
  mkInstant sched.scheduledDateDay sched.scheduledTime

/-- The spec's window end `E`: `scheduledDate` combined with the end time,
rolled to the next day when `E < S`. -/
def windowEnd (sched : CampaignSchedule) (e : HM) : Int :=
  let e0 := mkInstant sched.scheduledDateDay e
  if e0 < windowStart sched then e0 + 86400 else e0

end Talkrix

namespace Talkrix

/-! ## Outbound call creation (ultravox.service.ts 520-637) -/

inductive Provider
  | twilio | plivo | telnyx
deriving DecidableEq, Repr

/-- The options object of `createOutboundCallWithMedium`. -/
structure OutboundCallOptions where
  provider : Provider
  fromPhoneNumber : String
  toPhoneNumber : String
  twilioAccountSid : Option String
  twilioAuthToken : Option String
  plivoAuthId : Option String
  plivoAuthToken : Option String
  telnyxApiKey : Option String
  telnyxConnectionId : Option String
deriving DecidableEq, Repr

/-- The `{callId, joinUrl}` body the voice engine returns on success. -/
structure EngineCallData where
  callId : String
  joinUrl : String
deriving DecidableEq, Repr

/-- Oracle for the two external calls inside
`createOutboundCallWithMedium`: the engine call-creation response (`none`
models a missing body or missing `joinUrl`, the 502 branch) and the Twilio
`calls.create` result (`none` models a thrown error, the catch branch). -/
structure TelephonyWorld where
  engineCreate : Option EngineCallData
  twilioCreateSid : Option String

/-- A telephony-provider call actually placed, streaming into `streamUrl`. -/
structure BridgeAction where
  fromPhone : String
  toPhone : String
  streamUrl : String
deriving DecidableEq, Repr

/-- `StandardResponse` of `createOutboundCallWithMedium`, extended with the
list of provider calls placed during the invocation. -/
structure OutboundCallResult where
  statusCode : Int
  message : String
  callId : Option String
  joinUrl : Option String
  providerCallSid : Option String
  bridged : List BridgeAction
deriving DecidableEq, Repr

/-- `createOutboundCallWithMedium` (lines 520-637).  The engine session is
created with the provider-tagged medium in incoming mode; only the Twilio
branch then places a bridging call (TwiML `<Connect><Stream
url=joinUrl/></Connect>`); the Plivo and Telnyx branches return 400 errors. -/
def createOutboundCallWithMedium (world : TelephonyWorld)
    (options : OutboundCallOptions) : OutboundCallResult :=
  match world.engineCreate with
  | none =>
      { statusCode := 502, message := "Ultravox API did not return call data",
        callId := none, joinUrl := none, providerCallSid := none, bridged := [] }
  | some data =>
      match options.provider with
      | Provider.twilio =>
          if options.twilioAccountSid = none || options.twilioAuthToken = none then
            { statusCode := 400, message := "Twilio credentials are required",
              callId := none, joinUrl := none, providerCallSid := none, bridged := [] }
          else
            match world.twilioCreateSid with
            | some sid =>
                { statusCode := 201, message := "Outbound call created",
                  callId := some data.callId, joinUrl := some data.joinUrl,
                  providerCallSid := some sid,
                  bridged := [⟨options.fromPhoneNumber, options.toPhoneNumber, data.joinUrl⟩] }
            | none =>
                { statusCode := 500, message := "Failed to create outbound call",
                  callId := none, joinUrl := none, providerCallSid := none, bridged := [] }
      | Provider.plivo =>
          { statusCode := 400,
            message := "Plivo integration requires additional setup (answer_url endpoint)",
            callId := none, joinUrl := none, providerCallSid := none, bridged := [] }
      | Provider.telnyx =>
          { statusCode := 400, message := "Telnyx integration not yet implemented",
            callId := none, joinUrl := none, providerCallSid := none, bridged := [] }

end Talkrix

namespace Talkrix

/-! ## Data model (campaign.schema.ts, call-history.schema.ts) -/

inductive CallStatus
  | pending | inProgress | completed | failed | noAnswer
deriving DecidableEq, Repr

/-- The terminal contact statuses. -/
def CallStatus.isTerminal : CallStatus → Bool
  | .completed | .failed | .noAnswer => true
  | _ => false

inductive CampaignStatus
  | draft | scheduled | active | paused | pausedTimeWindow | completed
deriving DecidableEq, Repr

inductive CampaignType
  | outbound | inbound | ondemand
deriving DecidableEq, Repr

/-- `CampaignContact` (campaign.schema.ts).  `cid` is the Mongo subdocument
`_id`. -/
structure Contact where
  cid : Nat
  name : String
  phoneNumber : String
  callStatus : CallStatus
  callId : Option String
  callHistoryId : Option Nat
  calledAt : Option Int
  callDuration : Option Int
  callNotes : Option String
deriving DecidableEq, Repr

/-- `Campaign` (campaign.schema.ts), restricted to the fields the scheduler
core reads or writes. -/
structure Campaign where
  id : Nat
  userId : Nat
  name : String
  ctype : CampaignType
  agentId : Nat
  status : CampaignStatus
  contacts : List Contact
  schedule : Option CampaignSchedule
  outboundProvider : Option Provider
  outboundPhoneNumber : Option String
  completedCalls : Nat
  successfulCalls : Nat
  failedCalls : Nat
  startedAt : Option Int
  completedAt : Option Int
  lastProcessedAt : Option Int
  pausedReason : Option String
deriving DecidableEq, Repr

/-- A `CallHistory` row (call-history.schema.ts), keyed by Mongo `_id`
(`hid`) with the engine's id in `talkrixCallId`; `metaCampaignId` and
`metaContactId` are the `metadata.campaignId` / `metadata.contactId`
entries. Statuses are the strings the controllers write. -/
structure CallHistoryRow where
  hid : Nat
  talkrixCallId : String
  userId : Nat
  agentId : Nat
  status : String
  startedAt : Option Int
  endedAt : Option Int
  durationSeconds : Option Int
  endReason : Option String
  billedDuration : Option String
  billingStatus : Option String
  shortSummary : Option String
  summary : Option String
  recordingUrl : Option String
  metaCampaignId : Option Nat
  metaContactId : Option Nat
deriving DecidableEq, Repr

/-- `UserCallState` (campaign-scheduler.service.ts 14-20). `activeCampaigns`
is a JS `Set`, kept as a duplicate-free list. -/
structure UserCallState where
  userId : Nat
  activeCalls : Nat
  maxConcurrentCalls : Nat
  isProcessing : Bool
  activeCampaigns : List Nat
deriving DecidableEq, Repr

/-- Keys of the `activeCallsTracker` map: either the synthetic
`"pending_<campaignId>_<contactId>"` string or a call id handed to the
tracker (the engine call id on insert; whatever id a webhook passes on
delete). -/
inductive TrackKey
  | pending (campaignId contactId : Nat)
  | engine (callId : String)
deriving DecidableEq, Repr

/-- `ActiveCallInfo` (campaign-scheduler.service.ts 23-29). -/
structure ActiveCallInfo where
  key : TrackKey
  contactId : Nat
  campaignId : Nat
  userId : Nat
  startedAt : Int
deriving DecidableEq, Repr

/-- The whole mutable state: the durable `CampaignStore` and
`CallHistoryStore` plus the two in-memory maps of the scheduler service. -/
structure SysState where
  campaigns : List Campaign
  histories : List CallHistoryRow
  userStates : List UserCallState
  tracker : List ActiveCallInfo
deriving DecidableEq, Repr

/-- Read-only environment: the user-settings store and the agent store. -/
structure Env where
  userExists : Nat → Bool
  userMax : Nat → Option Nat
  userTelephony : Nat → Bool
  agents : List Nat

/-! ## Store primitives -/

/-- Update the first element satisfying `p` (Mongoose `findOneAndUpdate` /
positional `contacts.$` update). -/
def updateFirstWhere (p : α → Bool) (f : α → α) : List α → List α
  | [] => []
  | a :: as => if p a then f a :: as else a :: updateFirstWhere p f as

/-- JS `Map.set` on the tracker: replace the entry with the same key, else
append. -/
def trackerSet (v : ActiveCallInfo) : List ActiveCallInfo → List ActiveCallInfo
  | [] => [v]
  | e :: es => if e.key = v.key then v :: es else e :: trackerSet v es

/-- JS `Map.delete` on the tracker. -/
def trackerDelete (k : TrackKey) : List ActiveCallInfo → List ActiveCallInfo
  | [] => []
  | e :: es => if e.key = k then es else e :: trackerDelete k es

/-- Mutate the (first) `UserCallState` with the given `userId`, a no-op when
the user has no state (the `if (state)` guards in the source). -/
def statesModify (u : Nat) (f : UserCallState → UserCallState) :
    List UserCallState → List UserCallState :=
  updateFirstWhere (fun st => st.userId = u) f

/-- JS `Map.set` on `userCallStates` (used by `initializeUserState`). -/
def statesSet (st : UserCallState) (l : List UserCallState) : List UserCallState :=
  if l.any (fun s => s.userId = st.userId) then
    updateFirstWhere (fun s => s.userId = st.userId) (fun _ => st) l
  else l ++ [st]

/-- The status of contact `ctId` of campaign `cId` in a campaign store,
reading through the same first-match semantics as the updates. -/
def statusAt (campaigns : List Campaign) (cId ctId : Nat) : Option CallStatus :=
  (campaigns.find? (fun c => c.id = cId)).bind fun c =>
    (c.contacts.find? (fun ct => ct.cid = ctId)).map (fun ct => ct.callStatus)

/-- The full contact record at `(cId, ctId)`. -/
def contactAt (campaigns : List Campaign) (cId ctId : Nat) : Option Contact :=
  (campaigns.find? (fun c => c.id = cId)).bind fun c =>
    c.contacts.find? (fun ct => ct.cid = ctId)

end Talkrix

namespace Talkrix

/-! ## CampaignService (campaign.service.ts) -/

/-- `calculateCampaignStats` (lines 178-194): `(completedCalls,
successfulCalls, failedCalls)`. -/
def calculateCampaignStats (camp : Campaign) : Nat × Nat × Nat :=
  let successful := camp.contacts.countP (fun c => c.callStatus = CallStatus.completed)
  let failedC := camp.contacts.countP
    (fun c => c.callStatus = CallStatus.failed || c.callStatus = CallStatus.noAnswer)
  (successful + failedC, successful, failedC)

/-- Write the three totals computed from `fromCamp` onto a campaign (the
trailing `findByIdAndUpdate(campaignId, stats)` of
`updateContactCallStatus`). -/
def setStatsFrom (fromCamp : Campaign) (c : Campaign) : Campaign :=
  let s := calculateCampaignStats fromCamp
  { c with completedCalls := s.1, successfulCalls := s.2.1, failedCalls := s.2.2 }

/-- The `$set` of `updateContactCallStatus` (lines 147-166) applied to one
contact: the status and `calledAt` are always written; `callId`,
`callDuration` and `callNotes` only when the corresponding `callData` field
is truthy (so a duration of `0` or empty notes are not written). -/
def applyContactUpdate (st : CallStatus) (now : Int) (callId : Option String)
    (dur : Option Int) (notes : Option String) (ct : Contact) : Contact :=
  { ct with
    callStatus := st
    calledAt := some now
    callId := match callId with
      | some v => if v ≠ "" then some v else ct.callId
      | none => ct.callId
    callDuration := match dur with
      | some d => if d ≠ 0 then some d else ct.callDuration
      | none => ct.callDuration
    callNotes := match notes with
      | some s => if s ≠ "" then some s else ct.callNotes
      | none => ct.callNotes }

/-- The query `{ _id: campaignId, 'contacts._id': contactId }`. -/
def campaignMatches (cId ctId : Nat) (c : Campaign) : Bool :=
  c.id = cId && c.contacts.any (fun ct => ct.cid = ctId)

/-- `updateContactCallStatus` (campaign.service.ts 147-175): positional
update of the first contact with `_id = contactId` in the first matching
campaign, followed (when a campaign matched) by a stats write computed from
the updated document.  Returns the new store and whether a campaign
matched. -/
def updateContactCallStatus (cId ctId : Nat) (st : CallStatus) (now : Int)
    (callId : Option String) (dur : Option Int) (notes : Option String)
    (campaigns : List Campaign) : List Campaign × Bool :=
  match campaigns.find? (campaignMatches cId ctId) with
  | none => (campaigns, false)
  | some camp =>
      let updFn := fun c => { c with
        contacts := updateFirstWhere (fun ct => ct.cid = ctId)
          (applyContactUpdate st now callId dur notes) c.contacts }
      let camp' := updFn camp
      let cs1 := updateFirstWhere (campaignMatches cId ctId) updFn campaigns
      (updateFirstWhere (fun c => c.id = cId) (setStatsFrom camp') cs1, true)

/-- `updateStatus` (campaign.service.ts 134-144). -/
def updateStatusCampaign (cId : Nat) (st : CampaignStatus) (now : Int)
    (campaigns : List Campaign) : List Campaign :=
  updateFirstWhere (fun c => c.id = cId)
    (fun c =>
      if st = CampaignStatus.active || st = CampaignStatus.scheduled then
        { c with status := st, startedAt := some now }
      else if st = CampaignStatus.completed then
        { c with status := st, completedAt := some now }
      else
        { c with status := st })
    campaigns

/-- The conditional write a claim performs on one contact list: set the
first `pending` contact to `in-progress` with `calledAt = now`. -/
def claimContactList (now : Int) (cs : List Contact) : List Contact :=
  updateFirstWhere (fun ct => ct.callStatus = CallStatus.pending)
    (fun ct => { ct with callStatus := CallStatus.inProgress, calledAt := some now })
    cs

/-- Modelled from the spec: `claimPendingContact` is invoked by
`processUserCalls` (campaign-scheduler.service.ts 457) but its
implementation is not under `src/`.  Following §4.2 it performs a single
conditional write that (a) finds the first contact of the campaign whose
`callStatus` is `pending`, (b) sets that contact's `callStatus` to
`in-progress` and stamps `calledAt = now`, and (c) returns the mutated
campaign, contact and contactId — or returns `nil` (and leaves the store
unchanged) when no pending contact exists. -/
def claimPendingContact (cId : Nat) (now : Int) (campaigns : List Campaign) :
    Option (Campaign × Contact × Nat) × List Campaign :=
  match campaigns.find? (fun c => c.id = cId) with
  | none => (none, campaigns)
  | some camp =>
      match camp.contacts.find? (fun ct => ct.callStatus = CallStatus.pending) with
      | none => (none, campaigns)
      | some ct =>
          let camp' := { camp with contacts := claimContactList now camp.contacts }
          (some (camp',
                 { ct with callStatus := CallStatus.inProgress, calledAt := some now },
                 ct.cid),
           updateFirstWhere (fun c => c.id = cId)
             (fun c => { c with contacts := claimContactList now c.contacts }) campaigns)

/-- Modelled from the spec: `updateContactCallStatusByCallId` is invoked by
the webhook reducer (webhook.controller.ts 279) but its implementation is
not under `src/`.  Following §4.5 step 3 and the call-site comment ("the new
method that searches by callId directly"), it updates the contact of
campaign `cId` whose `callId` equals the engine call id to the mapped
status, stamping `calledAt` and `callDuration`, with the same stats
rewrite as `updateContactCallStatus`; returns whether the campaign and
contact were found. -/
def updateContactCallStatusByCallId (cId : Nat) (callId : String)
    (st : CallStatus) (now : Int) (dur : Option Int)
    (campaigns : List Campaign) : List Campaign × Bool :=
  let matchQ := fun (c : Campaign) =>
    c.id = cId && c.contacts.any (fun ct => ct.callId = some callId)
  match campaigns.find? matchQ with
  | none => (campaigns, false)
  | some camp =>
      let updFn := fun c => { c with
        contacts := updateFirstWhere (fun ct => ct.callId = some callId)
          (applyContactUpdate st now none dur none) c.contacts }
      let camp' := updFn camp
      let cs1 := updateFirstWhere matchQ updFn campaigns
      (updateFirstWhere (fun c => c.id = cId) (setStatsFrom camp') cs1, true)

end Talkrix

namespace Talkrix

/-! ## Scheduler service (campaign-scheduler.service.ts) -/

/-- `initializeUserState` (lines 332-361): count `in-progress` contacts
across the supplied campaigns, remember the `active` campaign ids, and load
`maxConcurrentCalls` (`user.settings?.maxConcurrentCalls || 1`, so a
missing or zero setting becomes 1).  A missing user leaves the state map
untouched. -/
def initializeUserState (env : Env) (u : Nat) (campaignsArg : List Campaign)
    (s : SysState) : SysState :=
  if env.userExists u then
    let totalActiveCalls := campaignsArg.foldl
      (fun n c => n + c.contacts.countP (fun ct => ct.callStatus = CallStatus.inProgress)) 0
    let activeCampaignIds :=
      (campaignsArg.filter (fun c => c.status = CampaignStatus.active)).map (fun c => c.id)
    let maxC := match env.userMax u with
      | some m => if m = 0 then 1 else m
      | none => 1
    let st : UserCallState :=
      { userId := u, activeCalls := totalActiveCalls, maxConcurrentCalls := maxC,
        isProcessing := false, activeCampaigns := activeCampaignIds.dedup }
    { s with userStates := statesSet st s.userStates }
  else s

/-- How one invocation of the external `createOutboundCallWithMedium` plus
the follow-up persistence steps turns out, as seen by
`initiateClaimedCall`: the engine returned a non-201 response; the engine
returned 201 but a later step (the `CallHistory` insert) threw; or
everything succeeded. -/
inductive InitOutcome
  | createFail (msg : String)
  | createOkThenThrow (engineCallId : String) (errMsg : String)
  | createOkComplete (engineCallId : String) (joinUrl : String)

/-- Fresh Mongo id for a new `CallHistory` row: rows are only appended, so
the current length is unused as an id. -/
def freshHid (s : SysState) : Nat := s.histories.length

/-- `initiateClaimedCall` (lines 516-661).  Validation failures mark the
contact `failed` without touching the budget or the tracker.  Otherwise the
slot is acquired (`activeCalls++`), the synthetic
`pending_<campaignId>_<contactId>` tracker entry is inserted, and the
outcome of the engine call decides the rest:
* non-201: decrement (`Math.max(0, a-1)`, which is `Nat` subtraction),
  delete the synthetic entry, mark the contact `failed`;
* 201 then a later throw: the tracker was already re-keyed to the engine
  call id, and the catch block decrements, deletes only the *synthetic*
  key, and marks the contact `failed` with the error message;
* 201 and success: re-key the tracker, append the `CallHistory` row
  (`create` forces `status: 'initiated'`), and update the contact to
  `in-progress` with the engine call id (the `callHistoryId` passed along
  is not among the fields `updateContactCallStatus` writes). -/
def initiateClaimedCall (env : Env) (outcome : InitOutcome) (now : Int)
    (campaign : Campaign) (contact : Contact) (ctId : Nat) (s : SysState) : SysState :=
  let cId := campaign.id
  let u := campaign.userId
  if campaign.outboundProvider = none || campaign.outboundPhoneNumber = none then
    { s with campaigns := (updateContactCallStatus cId ctId CallStatus.failed now
        none none (some "Missing outbound phone configuration") s.campaigns).1 }
  else if ¬ env.userTelephony u then
    { s with campaigns := (updateContactCallStatus cId ctId CallStatus.failed now
        none none (some "User telephony settings not configured") s.campaigns).1 }
  else if ¬ env.agents.contains campaign.agentId then
    { s with campaigns := (updateContactCallStatus cId ctId CallStatus.failed now
        none none (some "Agent not found") s.campaigns).1 }
  else
    let s1 := { s with
      userStates := statesModify u
        (fun st => { st with activeCalls := st.activeCalls + 1 }) s.userStates,
      tracker := trackerSet
        ⟨TrackKey.pending cId ctId, ctId, cId, u, now⟩ s.tracker }
    match outcome with
    | InitOutcome.createFail msg =>
        { s1 with
          userStates := statesModify u
            (fun st => { st with activeCalls := st.activeCalls - 1 }) s1.userStates,
          tracker := trackerDelete (TrackKey.pending cId ctId) s1.tracker,
          campaigns := (updateContactCallStatus cId ctId CallStatus.failed now
            none none (some (if msg = "" then "Failed to create call" else msg))
            s1.campaigns).1 }
    | InitOutcome.createOkThenThrow eid err =>
        let tr2 := trackerSet ⟨TrackKey.engine eid, ctId, cId, u, now⟩
          (trackerDelete (TrackKey.pending cId ctId) s1.tracker)
        let s2 := { s1 with tracker := tr2 }
        { s2 with
          userStates := statesModify u
            (fun st => { st with activeCalls := st.activeCalls - 1 }) s2.userStates,
          tracker := trackerDelete (TrackKey.pending cId ctId) s2.tracker,
          campaigns := (updateContactCallStatus cId ctId CallStatus.failed now
            none none (some (if err = "" then "Unknown error" else err)) s2.campaigns).1 }
    | InitOutcome.createOkComplete eid _joinUrl =>
        let tr2 := trackerSet ⟨TrackKey.engine eid, ctId, cId, u, now⟩
          (trackerDelete (TrackKey.pending cId ctId) s1.tracker)
        let s2 := { s1 with tracker := tr2 }
        let hid := freshHid s2
        let row : CallHistoryRow :=
          { hid := hid, talkrixCallId := eid, userId := u, agentId := campaign.agentId,
            status := "initiated", startedAt := none, endedAt := none,
            durationSeconds := none, endReason := none, billedDuration := none,
            billingStatus := none, shortSummary := none, summary := none,
            recordingUrl := none, metaCampaignId := some cId,
            metaContactId := some ctId }
        let s3 := { s2 with histories := s2.histories ++ [row] }
        { s3 with campaigns := (updateContactCallStatus cId ctId CallStatus.inProgress now
            (some eid) none none s3.campaigns).1 }

/-- `completeCampaign` (lines 948-980): finalize totals and status, stamp
`completedAt`, and drop the campaign from the user's active set. -/
def completeCampaign (cId u : Nat) (now : Int) (s : SysState) : SysState :=
  let s1 : SysState :=
    match s.campaigns.find? (fun c => c.id = cId) with
    | some camp =>
        let completedCount := camp.contacts.countP
          (fun c => c.callStatus = CallStatus.completed)
        let failedCount := camp.contacts.countP
          (fun c => c.callStatus = CallStatus.failed || c.callStatus = CallStatus.noAnswer)
        let fin := fun (c : Campaign) =>
          { c with status := CampaignStatus.completed, completedAt := some now,
                   completedCalls := completedCount + failedCount,
                   successfulCalls := completedCount, failedCalls := failedCount }
        { s with campaigns := updateFirstWhere (fun c => c.id = cId) fin s.campaigns }
    | none =>
        { s with campaigns := updateStatusCampaign cId CampaignStatus.completed now s.campaigns }
  { s1 with userStates := (statesModify u
      (fun st => { st with activeCampaigns := st.activeCampaigns.erase cId }) s1.userStates) }

/-- `completeCampaignDueToEndTime` (lines 987-1025). -/
def completeCampaignDueToEndTime (cId : Nat) (now : Int) (s : SysState) : SysState :=
  match s.campaigns.find? (fun c => c.id = cId) with
  | none => s
  | some camp =>
      let pendingCount := camp.contacts.countP (fun c => c.callStatus = CallStatus.pending)
      let s1 := { s with userStates := (statesModify camp.userId
        (fun st => { st with activeCampaigns := st.activeCampaigns.erase cId }) s.userStates) }
      if pendingCount > 0 then
        let park := fun (c : Campaign) =>
          { c with status := CampaignStatus.pausedTimeWindow,
                   pausedReason := some "end-time-reached",
                   lastProcessedAt := some now }
        { s1 with campaigns := updateFirstWhere (fun c => c.id = cId) park s1.campaigns }
      else
        { s1 with campaigns :=
            updateStatusCampaign cId CampaignStatus.completed now s1.campaigns }

/-- One step of the stop phase: `completeCampaignDueToEndTime` for the
snapshot campaign `c`. -/
def stopStep (now : Int) (st : SysState) (c : Campaign) : SysState :=
  completeCampaignDueToEndTime c.id now st

/-- `shouldStopCampaign` applied to a campaign record, with the guard on a
missing schedule (line 245). -/
def campaignShouldStop (tenv : TimeEnv) (c : Campaign) : Bool :=
  match c.schedule with
  | none => false
  | some sched => shouldStopCampaignAt tenv sched

/-- The stop phase of one scheduler tick (lines 132-145): over the snapshot
of `active` outbound campaigns, complete-due-to-end-time each one whose
`shouldStopCampaign` holds, evaluating `now` per campaign through
`getCurrentTimeInTimezone`. -/
def stopPhase (tenv : TimeEnv) (now : Int) (s : SysState) : SysState :=
  let snapshot := s.campaigns.filter (fun c =>
    c.status = CampaignStatus.active && c.ctype = CampaignType.outbound)
  let stopping := snapshot.filter (campaignShouldStop tenv)
  stopping.foldl (stopStep now) s

/-- `checkAndCompleteCampaigns` (lines 497-510) over a list of campaign
ids: complete those with no pending and no in-progress contacts. -/
def checkAndCompleteCampaigns (ids : List (Nat × Nat)) (now : Int) (s : SysState) : SysState :=
  ids.foldl
    (fun st (p : Nat × Nat) =>
      match st.campaigns.find? (fun c => c.id = p.1) with
      | none => st
      | some fresh =>
          if fresh.contacts.countP (fun c => c.callStatus = CallStatus.pending) = 0 &&
             fresh.contacts.countP (fun c => c.callStatus = CallStatus.inProgress) = 0 then
            completeCampaign p.1 p.2 now st
          else st)
    s

end Talkrix

namespace Talkrix

/-- The Mongo query `{ userId, status: 'active', type: 'outbound' }` used
by `processUserCalls` (line 431) and `resetUserCallState` (line 1225). -/
def userActiveOutbound (u : Nat) (c : Campaign) : Bool :=
  c.userId = u && c.status = CampaignStatus.active && c.ctype = CampaignType.outbound

/-- `user.settings?.maxConcurrentCalls` refresh at the top of
`processUserCalls` (lines 417-420): only a truthy value is taken. -/
def refreshMax (env : Env) (u : Nat) (st : UserCallState) : UserCallState :=
  match env.userMax u with
  | some m => if m ≠ 0 then { st with maxConcurrentCalls := m } else st
  | none => st

/-- One iteration budget of the claim loop of `processUserCalls`
(lines 444-474): `fuel` counts the remaining `attempts` against
`maxAttempts`; `claims` is `claimsProcessed`; `campIds` is the snapshot of
active-campaign ids and `idx` the running `campaignIndex`.  A successful
claim hands the contact to `initiateClaimedCall` with the oracle-provided
outcome; a full fruitless first pass breaks out. -/
def processLoop (env : Env) (outcomes : Nat → Nat → InitOutcome) (now : Int)
    (campIds : List Nat) (slots : Nat) :
    Nat → Nat → Nat → SysState → SysState × Nat
  | 0, claims, _, s => (s, claims)
  | fuel + 1, claims, idx, s =>
    if claims < slots then
      let cId := campIds.getD (idx % campIds.length) 0
      match claimPendingContact cId now s.campaigns with
      | (some (camp, ct, ctId), cs') =>
          let s2 := initiateClaimedCall env (outcomes cId ctId) now camp ct ctId
            { s with campaigns := cs' }
          processLoop env outcomes now campIds slots fuel (claims + 1) (idx + 1) s2
      | (none, _) =>
          if idx + 1 ≥ campIds.length && claims = 0 then (s, claims)
          else processLoop env outcomes now campIds slots fuel claims (idx + 1) s
    else (s, claims)

/-- The `availableSlots` computation of `processUserCalls` (line 423) after
the settings refresh: `maxConcurrentCalls - activeCalls` (the source value
is an `Int`; its positive part is what the loop can consume). -/
def availableSlots (env : Env) (u : Nat) (s : SysState) : Nat :=
  match s.userStates.find? (fun st => st.userId = u) with
  | none => 0
  | some st =>
      if st.isProcessing then 0
      else (refreshMax env u st).maxConcurrentCalls - st.activeCalls

/-- `processUserCalls` (lines 400-492): skip when the user has no state or
the processing latch is held; otherwise refresh `maxConcurrentCalls`,
compute the available slots, and run the round-robin claim loop over the
snapshot of active outbound campaigns (`maxAttempts = availableSlots *
activeCampaigns.length`).  When the loop claimed nothing, run the
completion check over the user's active outbound campaigns.  The latch is
released at the end (`finally`). -/
def processUserCalls (env : Env) (outcomes : Nat → Nat → InitOutcome) (now : Int)
    (u : Nat) (s : SysState) : SysState :=
  match s.userStates.find? (fun st => st.userId = u) with
  | none => s
  | some st0 =>
      if st0.isProcessing then s
      else
        let s1 := { s with userStates := (statesModify u
          (fun st => { refreshMax env u st with isProcessing := true }) s.userStates) }
        let st1 := refreshMax env u st0
        let slots : Int := (st1.maxConcurrentCalls : Int) - (st1.activeCalls : Int)
        let done := fun (sEnd : SysState) =>
          { sEnd with userStates := (statesModify u
              (fun st => { st with isProcessing := false }) sEnd.userStates) }
        if slots ≤ 0 then done s1
        else
          let activeCs := s1.campaigns.filter (userActiveOutbound u)
          if activeCs.isEmpty then done s1
          else
            let campIds := activeCs.map (fun c => c.id)
            let slotsN := slots.toNat
            let (s2, claims) := processLoop env outcomes now campIds slotsN
              (slotsN * campIds.length) 0 0 s1
            if claims = 0 then
              let fulls := s2.campaigns.filter (userActiveOutbound u)
              done (checkAndCompleteCampaigns (fulls.map (fun c => (c.id, c.userId))) now s2)
            else done s2

/-- `onCallEnded` (lines 892-943): delete the tracker entry under the id
the webhook passed, decrement the owner's `activeCalls` when a state
exists (`Math.max(0, a-1)`, which is `Nat` subtraction), finish the
campaign when nothing is pending or in progress, and otherwise either
leave the store for the delayed `processUserCalls` wake (the `setTimeout`
is not part of the state) or — when the user has no in-memory state —
re-initialize it from the user's `active` campaigns and run
`processUserCalls` inline. -/
def onCallEnded (env : Env) (outcomes : Nat → Nat → InitOutcome)
    (cId : Nat) (key : TrackKey) (now : Int) (s : SysState) : SysState :=
  let s1 := { s with tracker := trackerDelete key s.tracker }
  match s1.campaigns.find? (fun c => c.id = cId) with
  | none => s1
  | some camp =>
      let u := camp.userId
      let hasState := (s1.userStates.find? (fun st => st.userId = u)).isSome
      let s2 :=
        if hasState then
          { s1 with userStates := (statesModify u
            (fun st => { st with activeCalls := st.activeCalls - 1 }) s1.userStates) }
        else s1
      let pendingN := camp.contacts.countP (fun c => c.callStatus = CallStatus.pending)
      let inProgressN := camp.contacts.countP (fun c => c.callStatus = CallStatus.inProgress)
      if pendingN = 0 && inProgressN = 0 then completeCampaign cId u now s2
      else if hasState then s2
      else
        let userCampaigns := s2.campaigns.filter (fun c =>
          c.userId = u && c.status = CampaignStatus.active)
        if userCampaigns.isEmpty then s2
        else processUserCalls env outcomes now u (initializeUserState env u userCampaigns s2)

/-- `checkAndCleanupStaleCalls` (lines 826-886): snapshot the tracker
entries at least `CALL_TIMEOUT_MS` (15 min = 900 s) old, then for each one
drop it, release the owner's slot, and fail the contact with the timeout
note. -/
def checkAndCleanupStaleCalls (now : Int) (s : SysState) : SysState :=
  let stale := s.tracker.filter (fun ci => 900 ≤ now - ci.startedAt)
  stale.foldl
    (fun st ci =>
      let st1 := { st with
        tracker := trackerDelete ci.key st.tracker,
        userStates := (statesModify ci.userId
          (fun u => { u with activeCalls := u.activeCalls - 1 }) st.userStates) }
      { st1 with campaigns := (updateContactCallStatus ci.campaignId ci.contactId
          CallStatus.failed now none none
          (some "Call timed out - no disconnection received after 10 minutes")
          st1.campaigns).1 })
    s

/-- The body of the per-contact loop of `resetUserCallState`
(lines 1233-1243): an `in-progress` snapshot contact is failed with the
manual-clear note and counted. -/
def resetContactStep (campId : Nat) (now : Int) (acc2 : SysState × Nat)
    (ct : Contact) : SysState × Nat :=
  if ct.callStatus = CallStatus.inProgress then
    ({ acc2.1 with campaigns := (updateContactCallStatus campId ct.cid
        CallStatus.failed now none none
        (some "Reset due to manual state clear") acc2.1.campaigns).1 },
     acc2.2 + 1)
  else acc2

/-- The body of the per-campaign loop of `resetUserCallState`
(lines 1232-1244): fail every contact of the snapshot that is
`in-progress`, counting them. -/
def resetCampaignStep (now : Int) (acc : SysState × Nat) (camp : Campaign) :
    SysState × Nat :=
  camp.contacts.foldl (resetContactStep camp.id now) acc

/-- `resetUserCallState` (lines 1201-1258): drop the user's tracker
entries, zero the counter and release the latch, then fail every
`in-progress` contact of the user's *active* outbound campaigns with the
manual-clear note, returning how many contacts were reset (the count the
success message reports). -/
def resetUserCallState (u : Nat) (now : Int) (s : SysState) : SysState × Nat :=
  let s1 := { s with tracker := s.tracker.filter (fun ci => ci.userId ≠ u) }
  let s2 := { s1 with userStates := (statesModify u
    (fun st => { st with activeCalls := 0, isProcessing := false }) s1.userStates) }
  let snapshot := s2.campaigns.filter (userActiveOutbound u)
  snapshot.foldl (resetCampaignStep now) (s2, 0)

end Talkrix

namespace Talkrix

/-! ## Webhook reducer (webhook.controller.ts) -/

/-- The `call` object of a voice-engine `call.ended` webhook (fields of
`TalkrixWebhookPayload['call']` that `handleCallEnded` reads); timestamps
are in seconds. -/
structure EngineEndedEvent where
  callId : String
  joined : Option Int
  ended : Option Int
  endReason : Option String
  billedDuration : Option String
  billingStatus : Option String
  shortSummary : Option String
  summary : Option String
  recordingUrl : Option String
  recording : Option String
deriving DecidableEq, Repr

/-- The outcome mapping of `updateCampaignContactStatus`
(webhook.controller.ts 267-274): `unjoined`/`timeout` → no-answer,
`connection_error`/`system_error` → failed, everything else (including
`hangup`, `agent_hangup`) → completed. -/
def mapEndReasonToStatus (endReason : Option String) : CallStatus :=
  if endReason = some "unjoined" || endReason = some "timeout" then CallStatus.noAnswer
  else if endReason = some "connection_error" || endReason = some "system_error" then
    CallStatus.failed
  else CallStatus.completed

/-- The `durationSeconds` computation of `handleCallEnded` (lines 188-199):
engine `joined`/`ended` timestamps first, then the stored `startedAt`
fallback, else 0. -/
def engineDurationSeconds (ev : EngineEndedEvent) (rowStartedAt : Option Int) : Int :=
  match ev.joined, ev.ended with
  | some j, some e => e - j
  | _, _ =>
      match rowStartedAt, ev.ended with
      | some st, some e => e - st
      | _, _ => 0

/-- The `billedDuration` fix-up of `handleCallEnded` (lines 201-206):
falsy or zero-string billed durations are replaced by
`max 1 ⌈durationSeconds / 60⌉` minutes whenever the call had any
duration. -/
def engineBilledDuration (ev : EngineEndedEvent) (durationSeconds : Int) : Option String :=
  let given := ev.billedDuration
  let falsy := given = none || given = some "" || given = some "0s" || given = some "0"
  if falsy && durationSeconds > 0 then
    some (toString (max 1 ((durationSeconds + 59) / 60)) ++ "m")
  else given

/-- The `updateData` write of `handleCallEnded` (lines 208-240) applied to
the `CallHistory` row: the status is unconditionally `'completed'`;
optional fields are written only when present/truthy (an absent field of a
Mongoose update leaves the stored value). -/
def engineEndedRowUpdate (ev : EngineEndedEvent) (now : Int) (r : CallHistoryRow) :
    CallHistoryRow :=
  let durationSeconds := engineDurationSeconds ev r.startedAt
  let billed := engineBilledDuration ev durationSeconds
  { r with
    status := "completed"
    endedAt := some (ev.ended.getD now)
    endReason := match ev.endReason with
      | some x => some x
      | none => r.endReason
    durationSeconds := if durationSeconds > 0 then some durationSeconds else r.durationSeconds
    shortSummary := match ev.shortSummary with
      | some x => if x ≠ "" then some x else r.shortSummary
      | none => r.shortSummary
    summary := match ev.summary with
      | some x => if x ≠ "" then some x else r.summary
      | none => r.summary
    billedDuration := match billed with
      | some x => if x ≠ "" then some x else r.billedDuration
      | none => r.billedDuration
    billingStatus := match ev.billingStatus with
      | some x => if x ≠ "" then some x else r.billingStatus
      | none => r.billingStatus
    recordingUrl := match ev.recordingUrl with
      | some x => if x ≠ "" then some x else
          (match ev.recording with
           | some y => if y ≠ "" then some y else r.recordingUrl
           | none => r.recordingUrl)
      | none => match ev.recording with
          | some y => if y ≠ "" then some y else r.recordingUrl
          | none => r.recordingUrl }

/-- `updateCampaignContactStatus` (webhook.controller.ts 260-300): map the
end reason, update the contact found by the engine call id, and on success
hand over to the scheduler's `onCallEnded`. -/
def updateCampaignContactStatus (env : Env) (outcomes : Nat → Nat → InitOutcome)
    (campaignId : Nat) (callId : String)
    (endReason : Option String) (durationSeconds : Int) (now : Int)
    (s : SysState) : SysState :=
  let st := mapEndReasonToStatus endReason
  let r := updateContactCallStatusByCallId campaignId callId st now
    (some durationSeconds) s.campaigns
  let s1 := { s with campaigns := r.1 }
  if r.2 then onCallEnded env outcomes campaignId (TrackKey.engine callId) now s1 else s1

/-- The contact write the webhook reducer performs for a terminal engine
event: the mapped status, `calledAt = now` and the computed duration
(`callId` and `callNotes` untouched). -/
def endedContact (ev : EngineEndedEvent) (now : Int) (rowStartedAt : Option Int)
    (ct : Contact) : Contact :=
  applyContactUpdate (mapEndReasonToStatus ev.endReason) now none
    (some (engineDurationSeconds ev rowStartedAt)) none ct

/-- The campaign document `updateContactCallStatusByCallId` leaves when
the engine event's contact sits at `l1 ++ ct :: l2`: the contact rewritten
by [[endedContact]] and the stats recomputed from the updated document. -/
def endedCampaign (ev : EngineEndedEvent) (now : Int) (rowStartedAt : Option Int)
    (camp : Campaign) (l1 l2 : List Contact) (ct : Contact) : Campaign :=
  setStatsFrom
    { camp with contacts := (l1 ++ endedContact ev now rowStartedAt ct :: l2) }
    { camp with contacts := (l1 ++ endedContact ev now rowStartedAt ct :: l2) }

/-- The write `completeCampaign` performs on the campaign document
(lines 956-963): status `completed`, `completedAt` stamped, totals
finalized from the contacts. -/
def finishedCampaign (now : Int) (c : Campaign) : Campaign :=
  { c with
      status := CampaignStatus.completed,
      completedAt := some now,
      completedCalls :=
        (c.contacts.countP (fun x => x.callStatus = CallStatus.completed)) +
        (c.contacts.countP (fun x => x.callStatus = CallStatus.failed ||
          x.callStatus = CallStatus.noAnswer)),
      successfulCalls :=
        c.contacts.countP (fun x => x.callStatus = CallStatus.completed),
      failedCalls :=
        c.contacts.countP (fun x => x.callStatus = CallStatus.failed ||
          x.callStatus = CallStatus.noAnswer) }

/-- `handleCallEnded` (webhook.controller.ts 178-255): look the row up by
the engine call id (unknown ids change nothing), apply the row update, and
when the row carries a `campaignId` in its metadata run the campaign-side
reduction. -/
def handleCallEnded (env : Env) (outcomes : Nat → Nat → InitOutcome)
    (ev : EngineEndedEvent) (now : Int) (s : SysState) : SysState :=
  match s.histories.find? (fun r => r.talkrixCallId = ev.callId) with
  | none => s
  | some row =>
      let durationSeconds := engineDurationSeconds ev row.startedAt
      let s1 := { s with histories := (updateFirstWhere
        (fun r => r.talkrixCallId = ev.callId) (engineEndedRowUpdate ev now) s.histories) }
      match row.metaCampaignId with
      | none => s1
      | some campId => updateCampaignContactStatus env outcomes campId ev.callId
          ev.endReason durationSeconds now s1

/-- The terminal Twilio `CallStatus` values handled by
`handleTwilioCallEnded` (webhook.controller.ts 387-393). -/
inductive TwilioEndStatus
  | completedS | busy | failedS | noAnswerS | canceled
deriving DecidableEq, Repr

/-- The payload fields of a Twilio status callback that
`handleTwilioCallEnded` reads. -/
structure TwilioEndedPayload where
  callSid : String
  callStatus : TwilioEndStatus
  callDuration : Int
  errorMessage : Option String
deriving DecidableEq, Repr

/-- The status/end-reason mapping of `handleTwilioCallEnded`
(lines 422-446). -/
def twilioMap (p : TwilioEndedPayload) : CallStatus × String :=
  match p.callStatus with
  | TwilioEndStatus.completedS => (CallStatus.completed, "hangup")
  | TwilioEndStatus.busy => (CallStatus.failed, "busy")
  | TwilioEndStatus.failedS =>
      (CallStatus.failed, match p.errorMessage with
        | some msg => if msg ≠ "" then msg else "connection_error"
        | none => "connection_error")
  | TwilioEndStatus.noAnswerS => (CallStatus.noAnswer, "no-answer")
  | TwilioEndStatus.canceled => (CallStatus.failed, "canceled")

/-- The human-readable raw Twilio status used in the contact note. -/
def twilioStatusText : TwilioEndStatus → String
  | TwilioEndStatus.completedS => "completed"
  | TwilioEndStatus.busy => "busy"
  | TwilioEndStatus.failedS => "failed"
  | TwilioEndStatus.noAnswerS => "no-answer"
  | TwilioEndStatus.canceled => "canceled"

/-- `handleTwilioCallEnded` (webhook.controller.ts 412-485): update the
`CallHistory` row under the `callHistoryId` query parameter (`no-answer`
becomes the `missed` status), then update the contact named by the
`campaignId`/`contactId` query parameters and call the scheduler's
`onCallEnded` with the provider `CallSid`. -/
def handleTwilioCallEnded (env : Env) (outcomes : Nat → Nat → InitOutcome)
    (p : TwilioEndedPayload) (campaignId contactId : Option Nat)
    (callHistoryId : Option Nat) (now : Int) (s : SysState) : SysState :=
  let m := twilioMap p
  let durationSeconds := p.callDuration
  let s1 :=
    match callHistoryId with
    | none => s
    | some hId =>
        { s with histories := (updateFirstWhere (fun r => r.hid = hId)
            (fun r => { r with
              status := if m.1 = CallStatus.noAnswer then "missed"
                else if m.1 = CallStatus.completed then "completed" else "failed",
              endedAt := some now,
              durationSeconds := some durationSeconds,
              endReason := some m.2,
              billedDuration := some (if durationSeconds > 0 then
                toString ((durationSeconds + 59) / 60) ++ "m" else "0m") })
            s.histories) }
  match campaignId, contactId with
  | some cId, some ctId =>
      let note := "Twilio: " ++ twilioStatusText p.callStatus ++
        (match p.errorMessage with
         | some msg => if msg ≠ "" then " - " ++ msg else ""
         | none => "")
      let s2 := { s1 with campaigns := (updateContactCallStatus cId ctId m.1 now
          none (some durationSeconds) (some note) s1.campaigns).1 }
      onCallEnded env outcomes cId (TrackKey.engine p.callSid) now s2
  | _, _ => s1

end Talkrix

namespace Talkrix

/-! ## Concrete fixtures used by witnesses and counterexamples -/

/-- A contact that has already completed its call. -/
def ctDone : Contact :=
  ⟨10, "Alice", "+15551000000", CallStatus.completed, some "E0", none,
   some 100, some 60, none⟩

/-- A contact still waiting to be dialed. -/
def ctPend : Contact :=
  ⟨11, "Bob", "+15551000001", CallStatus.pending, none, none, none, none, none⟩

/-- `ctPend` after a claim at time 500. -/
def ctPendClaimed : Contact :=
  { ctPend with callStatus := CallStatus.inProgress, calledAt := some 500 }

/-- An active outbound campaign of user 7 holding `ctDone` and `ctPend`. -/
def campC1 : Campaign :=
  ⟨1, 7, "camp", CampaignType.outbound, 3, CampaignStatus.active,
   [ctDone, ctPend], none, some Provider.twilio, some "+15550001111",
   0, 0, 0, none, none, none, none⟩

/-- `campC1` after `ctPend` was claimed. -/
def campC1claimed : Campaign := { campC1 with contacts := [ctDone, ctPendClaimed] }

/-- An environment in which every user exists with `maxConcurrentCalls = 2`,
telephony is configured, and agent 3 exists. -/
def env7 : Env := ⟨fun _ => true, fun _ => some 2, fun _ => true, [3]⟩

/-- State right after the claim of `ctPend`: one in-flight slot not yet
acquired, empty tracker and history. -/
def stC7 : SysState := ⟨[campC1claimed], [], [⟨7, 1, 2, false, [1]⟩], []⟩

/-- A contact marked `failed` at `now` with the given note (the shape
`updateContactCallStatus` leaves when called with status `failed` and only
a note). -/
def failedContact (cOld : Contact) (now : Int) (msg : String) : Contact :=
  { cOld with callStatus := CallStatus.failed, calledAt := some now,
              callNotes := some msg }

/-- The transformation `resetUserCallState` applies to one contact: an
`in-progress` contact is failed with the manual-clear note, any other
contact is untouched. -/
def resetContact (now : Int) (ct : Contact) : Contact :=
  if ct.callStatus = CallStatus.inProgress then
    failedContact ct now "Reset due to manual state clear"
  else ct

/-- `resetContact` over a whole contact list. -/
def resetContacts (now : Int) (cts : List Contact) : List Contact :=
  cts.map (resetContact now)

/-- A contact currently being dialed (used by the C9 scenario). -/
def ctInProg : Contact :=
  ⟨12, "Carol", "+15551000002", CallStatus.inProgress, some "EX", none,
   some 50, none, none⟩

/-- A *paused* outbound campaign of user 7 holding an in-progress
contact. -/
def campPaused : Campaign :=
  ⟨2, 7, "paused camp", CampaignType.outbound, 3, CampaignStatus.paused,
   [ctInProg], none, some Provider.twilio, some "+15550001111",
   0, 0, 0, none, none, none, none⟩

/-- State for the C9 counterexample: user 7 has one paused outbound
campaign with an in-progress contact, a stuck counter and one tracker
entry. -/
def stC9 : SysState :=
  ⟨[campPaused], [], [⟨7, 1, 2, false, []⟩], [⟨TrackKey.engine "EX", 12, 2, 7, 0⟩]⟩

/-- The invariant tracked during the stop phase: the first in-memory state
of user `u` no longer lists campaign `cid` as active. -/
def StatesDropped (u cid : Nat) (states : List UserCallState) : Prop :=
  ∀ stU, states.find? (fun st => st.userId = u) = some stU →
    cid ∉ stU.activeCampaigns

/-- Every in-memory active-campaign set is duplicate-free (JS `Set`). -/
def StatesSetsNodup (states : List UserCallState) : Prop :=
  ∀ st ∈ states, st.activeCampaigns.Nodup

/-- A schedule whose window (09:00-17:00 UTC of day 0) is already past at
the probe instant. -/
def schedC6 : CampaignSchedule := ⟨0, ⟨9, 0⟩, some ⟨17, 0⟩, "UTC"⟩

/-- A time oracle reading 17:13:20 of day 0 in every zone. -/
def tenvC6 : TimeEnv := ⟨fun _ => some 62000, 62000, 62000⟩

/-- `campC1` carrying `schedC6` (active outbound, one pending contact). -/
def campC6 : Campaign := { campC1 with schedule := some schedC6 }

/-- A tick state holding `campC6` with its user state listing campaign 1. -/
def stC6 : SysState := ⟨[campC6], [], [⟨7, 0, 2, false, [1]⟩], []⟩

/-- An in-progress contact holding the engine call id `E1`. -/
def ctC2 : Contact :=
  ⟨12, "Carol", "+15551000002", CallStatus.inProgress, some "E1", none,
   some 100, none, none⟩

/-- An active outbound campaign of user 7 with one still-pending contact
and the in-flight `ctC2`. -/
def campC2 : Campaign :=
  ⟨1, 7, "camp", CampaignType.outbound, 3, CampaignStatus.active,
   [ctPend, ctC2], none, some Provider.twilio, some "+15550001111",
   0, 0, 0, none, none, none, none⟩

/-- The `CallHistory` row of engine call `E1`, carrying the campaign and
contact metadata. -/
def rowC2 : CallHistoryRow :=
  ⟨1, "E1", 7, 3, "in-progress", some 100, none, none, none, none, none,
   none, none, none, some 1, some 12⟩

/-- The terminal engine `call.ended` event for `E1`. -/
def evC2 : EngineEndedEvent :=
  ⟨"E1", some 100, some 160, some "hangup", none, none, none, none, none, none⟩

/-- An unused initiation oracle for scenarios that never reach
`processUserCalls`. -/
def outNever : Nat → Nat → InitOutcome := fun _ _ => InitOutcome.createFail "unused"

/-- Delivery-time state: user 7 has two in-flight calls and the tracker
holds the `E1` record. -/
def stC2 : SysState :=
  ⟨[campC2], [rowC2], [⟨7, 2, 2, false, [1]⟩],
   [⟨TrackKey.engine "E1", 12, 1, 7, 100⟩]⟩

/-- The S4 variant of `campC2`: `ctC2` is the campaign's *last* open
contact (the other one already completed), so the terminal event finishes
the campaign. -/
def campC2last : Campaign := { campC2 with contacts := [ctDone, ctC2] }

/-- Delivery-time state for the last-contact case. -/
def stC2last : SysState :=
  ⟨[campC2last], [rowC2], [⟨7, 1, 2, false, [1]⟩],
   [⟨TrackKey.engine "E1", 12, 1, 7, 100⟩]⟩

/-- Two pending contacts for the C3 trace. -/
def ctA : Contact :=
  ⟨21, "P1", "+15550000021", CallStatus.pending, none, none, none, none, none⟩

/-- Second pending contact for the C3 trace. -/
def ctB : Contact :=
  ⟨22, "P2", "+15550000022", CallStatus.pending, none, none, none, none, none⟩

/-- An active outbound campaign of user 7 with two pending contacts. -/
def campC3 : Campaign :=
  ⟨100, 7, "c3", CampaignType.outbound, 3, CampaignStatus.active,
   [ctA, ctB], none, some Provider.twilio, some "+15550001111",
   0, 0, 0, none, none, none, none⟩

/-- Environment with `maxConcurrentCalls = 1` for every user. -/
def envC3 : Env := ⟨fun _ => true, fun _ => some 1, fun _ => true, [3]⟩

/-- Call-creation oracle: contact 21 gets engine call `E1`, contact 22
gets `E2`, both fully successful. -/
def outC3 : Nat → Nat → InitOutcome := fun _ ctId =>
  if ctId = 21 then InitOutcome.createOkComplete "E1" "j1"
  else InitOutcome.createOkComplete "E2" "j2"

/-- The Twilio status callback for the first call, carrying the provider
`CallSid` rather than the engine call id. -/
def twC3 : TwilioEndedPayload := ⟨"CA1", TwilioEndStatus.completedS, 60, none⟩

/-- Initial state of the C3 trace. -/
def stC3 : SysState := ⟨[campC3], [], [], []⟩

/-- The C3 trace: initialize user 7, dial once, receive the Twilio
terminal callback for the first call, dial again. -/
def traceC3 : SysState :=
  processUserCalls envC3 outC3 1200 7
    (handleTwilioCallEnded envC3 outC3 twC3 (some 100) (some 21) (some 0) 1100
      (processUserCalls envC3 outC3 1000 7
        (initializeUserState envC3 7 [campC3] stC3)))

/-- Provenance of `pending` contacts: every `pending` contact of `new`
already existed as a `pending` contact (same contact id, same campaign id)
in `old`.  Holding this for an operation means the operation never writes
the `pending` status. -/
def PendingOnlyFrom (old new : List Campaign) : Prop :=
  ∀ c' ∈ new, ∀ ct' ∈ c'.contacts, ct'.callStatus = CallStatus.pending →
    ∃ c ∈ old, c.id = c'.id ∧ ∃ ct ∈ c.contacts, ct.cid = ct'.cid ∧
      ct.callStatus = CallStatus.pending

/-- Contact-list version of [[PendingOnlyFrom]]. -/
def ContactsPendingOnlyFrom (old new : List Contact) : Prop :=
  ∀ ct' ∈ new, ct'.callStatus = CallStatus.pending →
    ∃ ct ∈ old, ct.cid = ct'.cid ∧ ct.callStatus = CallStatus.pending

/-- The modeled mutating entry points other than `resetUserCallState`
(§4.8): the two webhook channels, the stale-call reaper, the stop phase of
a scheduler tick, user-state initialization, the dialing loop, the
scheduler's call-ended reducer, and the admin status update. -/
inductive Op
  | engineEnded (ev : EngineEndedEvent)
  | twilioEnded (p : TwilioEndedPayload) (campaignId contactId hId : Option Nat)
  | reaperTick
  | stopTick (tenv : TimeEnv)
  | initUser (u : Nat) (cs : List Campaign)
  | userCalls (u : Nat)
  | callEnded (cId : Nat) (key : TrackKey)
  | adminStatus (cId : Nat) (st : CampaignStatus)

/-- Dispatch of [[Op]] to the corresponding modeled handler. -/
def applyOp (env : Env) (out : Nat → Nat → InitOutcome) (now : Int) :
    Op → SysState → SysState
  | Op.engineEnded ev, s => handleCallEnded env out ev now s
  | Op.twilioEnded p cid ctid hid, s =>
      handleTwilioCallEnded env out p cid ctid hid now s
  | Op.reaperTick, s => checkAndCleanupStaleCalls now s
  | Op.stopTick tenv, s => stopPhase tenv now s
  | Op.initUser u cs, s => initializeUserState env u cs s
  | Op.userCalls u, s => processUserCalls env out now u s
  | Op.callEnded cId key, s => onCallEnded env out cId key now s
  | Op.adminStatus cId st, s =>
      { s with campaigns := updateStatusCampaign cId st now s.campaigns }

/-- The campaign for the C4 counterexample: its only contact already
finished with status `completed`. -/
def campC4 : Campaign := { campC1 with contacts := [ctDone] }

/-- C4 counterexample initial state. -/
def stC4 : SysState := ⟨[campC4], [], [], []⟩

/-- A late Twilio `busy` status callback for the already-completed call. -/
def twBusy : TwilioEndedPayload := ⟨"CA9", TwilioEndStatus.busy, 0, none⟩

end Talkrix

namespace Talkrix

/-! ## Generic store lemmas -/

theorem updateFirstWhere_of_find?_eq_none (p : α → Bool) (f : α → α) (l : List α)
    (h : l.find? p = none) : updateFirstWhere p f l = l := by
  induction l with
  | nil => rfl
  | cons a as ih =>
      rw [List.find?_cons] at h
      by_cases hp : p a
      · simp [hp] at h
      · simp [hp] at h
        have : as.find? p = none := List.find?_eq_none.mpr (by
          intro x hx
          simpa using h x hx)
        simp [updateFirstWhere, hp, ih this]

theorem updateFirstWhere_split (p : α → Bool) (f : α → α) (l : List α) (a : α)
    (h : l.find? p = some a) :
    ∃ l1 l2, l = l1 ++ a :: l2 ∧ (∀ x ∈ l1, p x = false) ∧
      updateFirstWhere p f l = l1 ++ f a :: l2 := by
  induction l with
  | nil => simp at h
  | cons b bs ih =>
      rw [List.find?_cons] at h
      by_cases hp : p b
      · simp [hp] at h
        subst h
        exact ⟨[], bs, by simp, by simp, by simp [updateFirstWhere, hp]⟩
      · simp [hp] at h
        obtain ⟨l1, l2, hEq, hNo, hUpd⟩ := ih h
        refine ⟨b :: l1, l2, by simp [hEq], ?_, by simp [updateFirstWhere, hp, hUpd]⟩
        intro x hx
        rcases List.mem_cons.mp hx with rfl | hx
        · simpa using hp
        · exact hNo x hx

theorem find?_updateFirstWhere_self (p : α → Bool) (f : α → α) (l : List α)
    (hpf : ∀ a, p (f a) = p a) :
    (updateFirstWhere p f l).find? p = (l.find? p).map f := by
  induction l with
  | nil => rfl
  | cons a as ih =>
      by_cases hp : p a
      · simp [updateFirstWhere, hp, List.find?_cons, hpf]
      · simp [updateFirstWhere, hp, List.find?_cons, ih]

theorem find?_updateFirstWhere_untouched (p q : α → Bool) (f : α → α) (l : List α)
    (hpq : ∀ a, p a = true → q a = false) (hq : ∀ a, q (f a) = q a) :
    (updateFirstWhere p f l).find? q = l.find? q := by
  induction l with
  | nil => rfl
  | cons a as ih =>
      by_cases hp : p a
      · have : q a = false := hpq a hp
        simp [updateFirstWhere, hp, List.find?_cons, hq, this]
      · simp [updateFirstWhere, hp, List.find?_cons, ih]

end Talkrix

namespace Talkrix

/-! ## Claim C5 -/

/-- C5: for every schedule with a scheduled date, a start time and an end
time, and every instant `now` read as wall-clock time in the schedule's
timezone, `shouldStartCampaign` holds exactly when `now ≥ S`, `now < S +
30 min` and `now < E`, where `S` combines the scheduled date with the start
time, and `E` combines it with the end time, rolled to the next day when
`E < S`. -/
theorem C5_shouldStart_iff_window (env : TimeEnv) (sched : CampaignSchedule)
    (e : HM) (now : Int)
    (hEnd : sched.endTime = some e) (hTz : env.tzNow sched.timezone = some now) :
    shouldStartCampaignAt env sched = true ↔
      (windowStart sched ≤ now ∧ now < windowStart sched + 1800 ∧
       now < windowEnd sched e) := by
  simp only [shouldStartCampaignAt, getCurrentTimeInTimezone, hTz,
    shouldStartCampaign, hEnd, windowStart, windowEnd, mkInstant,
    Bool.and_eq_true, decide_eq_true_eq]
  split_ifs <;> constructor <;> intro h <;> omega

/-- Witness for C5 at a 10:00–18:00 window checked at exactly 10:00. -/
theorem C5_shouldStart_iff_window_witness :
    shouldStartCampaignAt ⟨fun _ => some 36000, 0, 0⟩
        ⟨0, ⟨10, 0⟩, some ⟨18, 0⟩, "America/New_York"⟩ = true ↔
      (windowStart ⟨0, ⟨10, 0⟩, some ⟨18, 0⟩, "America/New_York"⟩ ≤ 36000 ∧
       (36000 : Int) < windowStart ⟨0, ⟨10, 0⟩, some ⟨18, 0⟩, "America/New_York"⟩ + 1800 ∧
       (36000 : Int) < windowEnd ⟨0, ⟨10, 0⟩, some ⟨18, 0⟩, "America/New_York"⟩ ⟨18, 0⟩) :=
  C5_shouldStart_iff_window ⟨fun _ => some 36000, 0, 0⟩
    ⟨0, ⟨10, 0⟩, some ⟨18, 0⟩, "America/New_York"⟩ ⟨18, 0⟩ 36000 rfl rfl

end Talkrix

namespace Talkrix

/-! ## Claim C8 -/

/-- C8 counterexample: on a server whose local wall clock is UTC+5:30
(`serverNow = 19800`, `utcNow = 0`), an invalid timezone makes
`getCurrentTimeInTimezone` return the server's local time 19800, not the
UTC time 0, and `shouldStopCampaign` for a 00:30–01:00 window evaluates to
`true` through the fallback although at UTC wall-clock time it is
`false`. -/
theorem C8_counterexample :
    (getCurrentTimeInTimezone ⟨fun _ => none, 19800, 0⟩ "Invalid/Zone").time = 19800 ∧
    (19800 : Int) ≠ 0 ∧
    shouldStopCampaignAt ⟨fun _ => none, 19800, 0⟩
      ⟨0, ⟨0, 30⟩, some ⟨1, 0⟩, "Invalid/Zone"⟩ = true ∧
    shouldStopCampaign ⟨0, ⟨0, 30⟩, some ⟨1, 0⟩, "Invalid/Zone"⟩ 0 = false := by
  refine ⟨rfl, by decide, ?_, ?_⟩ <;> rfl

/-- C8 amended: for an invalid or unknown timezone the time-window
evaluations fall back to the *server's local* wall-clock time (`new
Date()`), emitting a warning and no error; this equals UTC wall-clock time
only when the server's zone is UTC. -/
theorem C8_invalid_timezone_falls_back_to_server_time (env : TimeEnv)
    (sched : CampaignSchedule) (h : env.tzNow sched.timezone = none) :
    shouldStartCampaignAt env sched = shouldStartCampaign sched env.serverNow ∧
    shouldStopCampaignAt env sched = shouldStopCampaign sched env.serverNow ∧
    canResumeCampaignInWindowAt env sched =
      canResumeCampaignInWindow sched env.serverNow ∧
    (getCurrentTimeInTimezone env sched.timezone).warned = true := by
  simp [shouldStartCampaignAt, shouldStopCampaignAt, canResumeCampaignInWindowAt,
    getCurrentTimeInTimezone, h]

/-- Witness for the C8 amended theorem at a concrete invalid-zone
environment. -/
theorem C8_invalid_timezone_falls_back_to_server_time_witness :
    shouldStartCampaignAt ⟨fun _ => none, 19800, 0⟩
        ⟨0, ⟨0, 30⟩, some ⟨1, 0⟩, "Invalid/Zone"⟩ =
      shouldStartCampaign ⟨0, ⟨0, 30⟩, some ⟨1, 0⟩, "Invalid/Zone"⟩ 19800 ∧
    shouldStopCampaignAt ⟨fun _ => none, 19800, 0⟩
        ⟨0, ⟨0, 30⟩, some ⟨1, 0⟩, "Invalid/Zone"⟩ =
      shouldStopCampaign ⟨0, ⟨0, 30⟩, some ⟨1, 0⟩, "Invalid/Zone"⟩ 19800 ∧
    canResumeCampaignInWindowAt ⟨fun _ => none, 19800, 0⟩
        ⟨0, ⟨0, 30⟩, some ⟨1, 0⟩, "Invalid/Zone"⟩ =
      canResumeCampaignInWindow ⟨0, ⟨0, 30⟩, some ⟨1, 0⟩, "Invalid/Zone"⟩ 19800 ∧
    (getCurrentTimeInTimezone ⟨fun _ => none, 19800, 0⟩ "Invalid/Zone").warned = true :=
  C8_invalid_timezone_falls_back_to_server_time ⟨fun _ => none, 19800, 0⟩
    ⟨0, ⟨0, 30⟩, some ⟨1, 0⟩, "Invalid/Zone"⟩ rfl

end Talkrix

namespace Talkrix

/-! ## Claim C10 -/

/-- C10 counterexample: with a healthy engine session and full credentials,
a `plivo` outbound call creation returns status 400 — not 201 — and places
no bridging call, so call creation cannot succeed for each of the three
supported providers. -/
theorem C10_counterexample :
    (createOutboundCallWithMedium ⟨some ⟨"EC1", "wss://join"⟩, some "CA1"⟩
      ⟨Provider.plivo, "+15550001111", "+15551000000", some "AC", some "tok",
       some "plivoId", some "plivoTok", some "telnyxKey", some "telnyxConn"⟩).statusCode
      = 400 ∧
    (createOutboundCallWithMedium ⟨some ⟨"EC1", "wss://join"⟩, some "CA1"⟩
      ⟨Provider.plivo, "+15550001111", "+15551000000", some "AC", some "tok",
       some "plivoId", some "plivoTok", some "telnyxKey", some "telnyxConn"⟩).bridged
      = [] ∧
    (400 : Int) ≠ 201 := by
  refine ⟨rfl, rfl, by decide⟩

/-- C10 amended: only the `twilio` provider is implemented end-to-end —
with Twilio credentials and a successful engine session, call creation
returns 201 and places exactly one provider call from the campaign's
from-phone to the contact's phone streaming into the engine `joinUrl`
(TwiML `<Connect><Stream/></Connect>`); for `plivo` and `telnyx` the
bridge step is unimplemented and call creation returns a 400 error with no
provider call placed, even though the engine session was created. -/
theorem C10_only_twilio_bridges (world : TelephonyWorld)
    (options : OutboundCallOptions) (data : EngineCallData) (sid : String)
    (hEngine : world.engineCreate = some data) :
    (options.provider = Provider.twilio →
      options.twilioAccountSid ≠ none → options.twilioAuthToken ≠ none →
      world.twilioCreateSid = some sid →
        (createOutboundCallWithMedium world options).statusCode = 201 ∧
        (createOutboundCallWithMedium world options).bridged =
          [⟨options.fromPhoneNumber, options.toPhoneNumber, data.joinUrl⟩] ∧
        (createOutboundCallWithMedium world options).callId = some data.callId) ∧
    (options.provider = Provider.plivo →
        (createOutboundCallWithMedium world options).statusCode = 400 ∧
        (createOutboundCallWithMedium world options).bridged = []) ∧
    (options.provider = Provider.telnyx →
        (createOutboundCallWithMedium world options).statusCode = 400 ∧
        (createOutboundCallWithMedium world options).bridged = []) := by
  refine ⟨?_, ?_, ?_⟩
  · intro hp hsid htok hw
    simp [createOutboundCallWithMedium, hEngine, hp, hsid, htok, hw]
  · intro hp
    simp [createOutboundCallWithMedium, hEngine, hp]
  · intro hp
    simp [createOutboundCallWithMedium, hEngine, hp]

/-- Witness for the C10 amended theorem: the Twilio success case at
concrete inputs. -/
theorem C10_only_twilio_bridges_witness :
    (createOutboundCallWithMedium ⟨some ⟨"EC1", "wss://join"⟩, some "CA1"⟩
      ⟨Provider.twilio, "+15550001111", "+15551000000", some "AC", some "tok",
       none, none, none, none⟩).statusCode = 201 ∧
    (createOutboundCallWithMedium ⟨some ⟨"EC1", "wss://join"⟩, some "CA1"⟩
      ⟨Provider.twilio, "+15550001111", "+15551000000", some "AC", some "tok",
       none, none, none, none⟩).bridged = [⟨"+15550001111", "+15551000000", "wss://join"⟩] ∧
    (createOutboundCallWithMedium ⟨some ⟨"EC1", "wss://join"⟩, some "CA1"⟩
      ⟨Provider.twilio, "+15550001111", "+15551000000", some "AC", some "tok",
       none, none, none, none⟩).callId = some "EC1" :=
  (C10_only_twilio_bridges ⟨some ⟨"EC1", "wss://join"⟩, some "CA1"⟩
      ⟨Provider.twilio, "+15550001111", "+15551000000", some "AC", some "tok",
       none, none, none, none⟩ ⟨"EC1", "wss://join"⟩ "CA1" rfl).1
    rfl (by decide) (by decide) rfl

end Talkrix

namespace Talkrix

/-! ## Claim C1 -/

/-- C1 (modelled from the spec, since `claimPendingContact` is not under
`src/`): for the campaign found under `campaignId`, the claim selects the
*first* contact whose `callStatus` is `pending` — every contact before it
is not pending — sets exactly that contact to `in-progress` with
`calledAt = now`, leaves every other campaign and contact untouched, and
returns the updated campaign, contact and contactId; when no pending
contact exists it returns `none` and the store is unchanged. -/
theorem C1_claimPendingContact_contract (campaigns : List Campaign) (cId : Nat)
    (now : Int) (camp : Campaign)
    (hFind : campaigns.find? (fun c => c.id = cId) = some camp) :
    (∀ ct, camp.contacts.find? (fun c => c.callStatus = CallStatus.pending) = some ct →
      ∃ l1 l2 m1 m2,
        camp.contacts = l1 ++ ct :: l2 ∧
        (∀ x ∈ l1, x.callStatus ≠ CallStatus.pending) ∧
        campaigns = m1 ++ camp :: m2 ∧
        (∀ c ∈ m1, c.id ≠ cId) ∧
        (claimPendingContact cId now campaigns).1 =
          some ({ camp with contacts :=
                    l1 ++ { ct with callStatus := CallStatus.inProgress,
                                    calledAt := some now } :: l2 },
                { ct with callStatus := CallStatus.inProgress, calledAt := some now },
                ct.cid) ∧
        (claimPendingContact cId now campaigns).2 =
          m1 ++ { camp with contacts :=
                    l1 ++ { ct with callStatus := CallStatus.inProgress,
                                    calledAt := some now } :: l2 } :: m2) ∧
    (camp.contacts.find? (fun c => c.callStatus = CallStatus.pending) = none →
      (claimPendingContact cId now campaigns).1 = none ∧
      (claimPendingContact cId now campaigns).2 = campaigns) := by
  constructor
  · intro ct hct
    obtain ⟨l1, l2, hEq, hNo, hUpd⟩ := updateFirstWhere_split
      (fun c => c.callStatus = CallStatus.pending)
      (fun c => { c with callStatus := CallStatus.inProgress, calledAt := some now })
      camp.contacts ct hct
    obtain ⟨m1, m2, hEq2, hNo2, hUpd2⟩ := updateFirstWhere_split
      (fun c => c.id = cId)
      (fun c => { c with contacts := claimContactList now c.contacts })
      campaigns camp hFind
    refine ⟨l1, l2, m1, m2, hEq, ?_, hEq2, ?_, ?_, ?_⟩
    · intro x hx
      have := hNo x hx
      simpa using this
    · intro c hc
      have := hNo2 c hc
      simpa using this
    · simp only [claimPendingContact, hFind, hct, claimContactList, hUpd]
    · have hcl : claimContactList now camp.contacts =
          l1 ++ { ct with callStatus := CallStatus.inProgress,
                          calledAt := some now } :: l2 := hUpd
      simp only [claimPendingContact, hFind, hct]
      rw [hUpd2, hcl]
  · intro hnone
    constructor
    · simp [claimPendingContact, hFind, hnone]
    · simp [claimPendingContact, hFind, hnone]

/-- Witness for C1: the claim on `campC1` (first contact completed, second
pending) at time 500. -/
theorem C1_claimPendingContact_contract_witness :
    (∀ ct, campC1.contacts.find? (fun c => c.callStatus = CallStatus.pending) = some ct →
      ∃ l1 l2 m1 m2,
        campC1.contacts = l1 ++ ct :: l2 ∧
        (∀ x ∈ l1, x.callStatus ≠ CallStatus.pending) ∧
        [campC1] = m1 ++ campC1 :: m2 ∧
        (∀ c ∈ m1, c.id ≠ 1) ∧
        (claimPendingContact 1 500 [campC1]).1 =
          some ({ campC1 with contacts :=
                    l1 ++ { ct with callStatus := CallStatus.inProgress,
                                    calledAt := some 500 } :: l2 },
                { ct with callStatus := CallStatus.inProgress, calledAt := some 500 },
                ct.cid) ∧
        (claimPendingContact 1 500 [campC1]).2 =
          m1 ++ { campC1 with contacts :=
                    l1 ++ { ct with callStatus := CallStatus.inProgress,
                                    calledAt := some 500 } :: l2 } :: m2) ∧
    (campC1.contacts.find? (fun c => c.callStatus = CallStatus.pending) = none →
      (claimPendingContact 1 500 [campC1]).1 = none ∧
      (claimPendingContact 1 500 [campC1]).2 = [campC1]) :=
  C1_claimPendingContact_contract [campC1] 1 500 campC1 (by decide)

end Talkrix

namespace Talkrix

/-! ## Decomposition lemmas for first-match updates -/

theorem find?_append_first (q : α → Bool) (m1 : List α) (b : α) (m2 : List α)
    (h1 : ∀ x ∈ m1, q x = false) (hb : q b = true) :
    (m1 ++ b :: m2).find? q = some b := by
  induction m1 with
  | nil => simp [List.find?_cons, hb]
  | cons a as ih =>
      have ha := h1 a (by simp)
      simpa [List.find?_cons, ha] using ih (fun x hx => h1 x (by simp [hx]))

theorem updateFirstWhere_append (p : α → Bool) (f : α → α) (m1 : List α) (b : α)
    (m2 : List α) (h1 : ∀ x ∈ m1, p x = false) (hb : p b = true) :
    updateFirstWhere p f (m1 ++ b :: m2) = m1 ++ f b :: m2 := by
  induction m1 with
  | nil => simp [updateFirstWhere, hb]
  | cons a as ih =>
      have ha := h1 a (by simp)
      simpa [updateFirstWhere, ha] using ih (fun x hx => h1 x (by simp [hx]))

theorem updateFirstWhere_comp (p : α → Bool) (f g : α → α) (l : List α)
    (hg : ∀ a, p (g a) = p a) :
    updateFirstWhere p f (updateFirstWhere p g l) =
      updateFirstWhere p (fun a => f (g a)) l := by
  induction l with
  | nil => rfl
  | cons a as ih =>
      by_cases hp : p a
      · simp [updateFirstWhere, hp, hg]
      · simp [updateFirstWhere, hp, ih]

theorem updateFirstWhere_id (p : α → Bool) (l : List α) :
    updateFirstWhere p (fun a => a) l = l := by
  induction l with
  | nil => rfl
  | cons a as ih =>
      by_cases hp : p a
      · simp [updateFirstWhere, hp]
      · simp [updateFirstWhere, hp, ih]

theorem mem_trackerSet (v : ActiveCallInfo) (l : List ActiveCallInfo)
    (e : ActiveCallInfo) (he : e ∈ trackerSet v l) : e = v ∨ e ∈ l := by
  induction l with
  | nil => simpa [trackerSet] using he
  | cons a as ih =>
      by_cases hk : a.key = v.key
      · simp [trackerSet, hk] at he
        rcases he with rfl | h
        · exact Or.inl rfl
        · exact Or.inr (by simp [h])
      · simp [trackerSet, hk] at he
        rcases he with rfl | h
        · exact Or.inr (by simp)
        · rcases ih h with h' | h'
          · exact Or.inl h'
          · exact Or.inr (by simp [h'])

theorem trackerDelete_of_forall_ne (k : TrackKey) (l : List ActiveCallInfo)
    (h : ∀ e ∈ l, e.key ≠ k) : trackerDelete k l = l := by
  induction l with
  | nil => rfl
  | cons a as ih =>
      have ha : a.key ≠ k := h a (by simp)
      simp [trackerDelete, ha, ih (fun e he => h e (by simp [he]))]

theorem trackerDelete_trackerSet_same (v : ActiveCallInfo) (l : List ActiveCallInfo) :
    trackerDelete v.key (trackerSet v l) = trackerDelete v.key l := by
  induction l with
  | nil => simp [trackerSet, trackerDelete]
  | cons a as ih =>
      by_cases hk : a.key = v.key
      · simp [trackerSet, trackerDelete, hk]
      · simp [trackerSet, trackerDelete, hk, ih]

end Talkrix

namespace Talkrix

/-- Closed form of `updateContactCallStatus` on a store decomposed around
the first campaign with the target id, whose contacts are decomposed around
the first contact with the target id. -/
theorem updateContactCallStatus_closed_form
    (cId ctId : Nat) (st : CallStatus) (now : Int)
    (callId : Option String) (dur : Option Int) (notes : Option String)
    (m1 m2 : List Campaign) (c0 : Campaign) (l1 l2 : List Contact) (cOld : Contact)
    (hm1 : ∀ x ∈ m1, x.id ≠ cId) (hc0id : c0.id = cId)
    (hcts : c0.contacts = l1 ++ cOld :: l2)
    (hl1 : ∀ x ∈ l1, x.cid ≠ ctId) (hcid : cOld.cid = ctId) :
    updateContactCallStatus cId ctId st now callId dur notes (m1 ++ c0 :: m2) =
      (m1 ++ setStatsFrom
          { c0 with contacts := l1 ++ applyContactUpdate st now callId dur notes cOld :: l2 }
          { c0 with contacts := l1 ++ applyContactUpdate st now callId dur notes cOld :: l2 }
        :: m2,
       true) := by
  have hm1' : ∀ x ∈ m1, campaignMatches cId ctId x = false := by
    intro x hx
    simp [campaignMatches, hm1 x hx]
  have hc0m : campaignMatches cId ctId c0 = true := by
    simp [campaignMatches, hc0id, hcts]
    exact Or.inr (Or.inl hcid)
  have hfind : (m1 ++ c0 :: m2).find? (campaignMatches cId ctId) = some c0 :=
    find?_append_first _ m1 c0 m2 hm1' hc0m
  have hl1' : ∀ x ∈ l1, decide (x.cid = ctId) = false := by
    intro x hx
    simp [hl1 x hx]
  have hctupd : updateFirstWhere (fun ct => ct.cid = ctId)
      (applyContactUpdate st now callId dur notes) c0.contacts =
      l1 ++ applyContactUpdate st now callId dur notes cOld :: l2 := by
    rw [hcts]
    exact updateFirstWhere_append _ _ l1 cOld l2 hl1' (by simp [hcid])
  have hm1id : ∀ x ∈ m1, decide (x.id = cId) = false := by
    intro x hx
    simp [hm1 x hx]
  simp only [updateContactCallStatus, hfind]
  rw [updateFirstWhere_append _ _ m1 c0 m2 hm1' hc0m]
  simp only [hctupd]
  rw [updateFirstWhere_append _ _ m1 _ m2 hm1id (by simp [hc0id])]

end Talkrix

namespace Talkrix

/-! ## Claim C7 -/

/-- C7 counterexample: validation passes, the engine call is created
(`E9`), and then the `CallHistory` insert throws.  The slot is released and
the contact is failed, but the `ActiveCallRecord` is *not* dropped: the
catch block deletes only the synthetic `pending_…` key, and the record
re-keyed under the engine call id `E9` stays in the tracker. -/
theorem C7_counterexample :
    (initiateClaimedCall env7 (InitOutcome.createOkThenThrow "E9" "db write failed")
        500 campC1claimed ctPendClaimed 11 stC7).tracker =
      [⟨TrackKey.engine "E9", 11, 1, 7, 500⟩] ∧
    stC7.tracker = [] ∧
    (initiateClaimedCall env7 (InitOutcome.createOkThenThrow "E9" "db write failed")
        500 campC1claimed ctPendClaimed 11 stC7).tracker ≠ stC7.tracker ∧
    (initiateClaimedCall env7 (InitOutcome.createOkThenThrow "E9" "db write failed")
        500 campC1claimed ctPendClaimed 11 stC7).userStates = stC7.userStates ∧
    statusAt (initiateClaimedCall env7 (InitOutcome.createOkThenThrow "E9" "db write failed")
        500 campC1claimed ctPendClaimed 11 stC7).campaigns 1 11 =
      some CallStatus.failed := by
  refine ⟨by decide, by decide, by decide, by decide, by decide⟩

end Talkrix


namespace Talkrix

theorem trackerDelete_trackerSet_eq (k : TrackKey) (v : ActiveCallInfo)
    (l : List ActiveCallInfo) (hk : v.key = k) :
    trackerDelete k (trackerSet v l) = trackerDelete k l :=
  hk ▸ trackerDelete_trackerSet_same v l

theorem statesModify_acquire_release (u : Nat) (l : List UserCallState) :
    statesModify u (fun st => { st with activeCalls := st.activeCalls - 1 })
      (statesModify u (fun st => { st with activeCalls := st.activeCalls + 1 }) l) = l := by
  induction l with
  | nil => rfl
  | cons a as ih =>
      by_cases hp : a.userId = u
      · subst hp
        simp [statesModify, updateFirstWhere]
      · simp only [statesModify, updateFirstWhere, hp] at ih ⊢
        simp [hp, ih]

end Talkrix

namespace Talkrix

/-- C7 amended: validation failures (missing outbound provider or
from-phone, missing telephony settings, missing agent) fail the contact
with a non-empty note and leave the budget counter and the tracker
untouched.  After the slot is acquired, a non-201 engine response releases
the slot exactly (`a + 1 - 1 = a`, so the floor never bites), drops the
synthetic record, and fails the contact with a note; but when a *later*
step throws after the 201, the slot is released and the contact failed
while the `ActiveCallRecord` re-keyed under the engine call id remains in
the tracker — the catch block deletes only the synthetic key. -/
theorem C7_initiateClaimedCall_failure_paths
    (env : Env) (now : Int) (campaign : Campaign) (contact : Contact)
    (ctId : Nat) (s : SysState)
    (m1 m2 : List Campaign) (c0 : Campaign) (l1 l2 : List Contact) (cOld : Contact)
    (hStore : s.campaigns = m1 ++ c0 :: m2)
    (hm1 : ∀ x ∈ m1, x.id ≠ campaign.id) (hc0id : c0.id = campaign.id)
    (hcts : c0.contacts = l1 ++ cOld :: l2)
    (hl1 : ∀ x ∈ l1, x.cid ≠ ctId) (hcid : cOld.cid = ctId) :
    ((campaign.outboundProvider = none ∨ campaign.outboundPhoneNumber = none ∨
      env.userTelephony campaign.userId = false ∨
      env.agents.contains campaign.agentId = false) →
      ∀ outcome,
        (initiateClaimedCall env outcome now campaign contact ctId s).userStates =
          s.userStates ∧
        (initiateClaimedCall env outcome now campaign contact ctId s).tracker =
          s.tracker ∧
        ∃ msg, msg ≠ "" ∧
          contactAt (initiateClaimedCall env outcome now campaign contact ctId s).campaigns
              campaign.id ctId =
            some (failedContact cOld now msg)) ∧
    (campaign.outboundProvider ≠ none → campaign.outboundPhoneNumber ≠ none →
      env.userTelephony campaign.userId = true →
      env.agents.contains campaign.agentId = true →
      (∀ e ∈ s.tracker, e.key ≠ TrackKey.pending campaign.id ctId) →
      (∀ msg,
        (initiateClaimedCall env (InitOutcome.createFail msg) now campaign contact ctId
            s).userStates = s.userStates ∧
        (initiateClaimedCall env (InitOutcome.createFail msg) now campaign contact ctId
            s).tracker = s.tracker ∧
        ∃ m, m ≠ "" ∧
          contactAt (initiateClaimedCall env (InitOutcome.createFail msg) now campaign
              contact ctId s).campaigns campaign.id ctId =
            some (failedContact cOld now m)) ∧
      (∀ eid err, err ≠ "" →
        (initiateClaimedCall env (InitOutcome.createOkThenThrow eid err) now campaign
            contact ctId s).userStates = s.userStates ∧
        (initiateClaimedCall env (InitOutcome.createOkThenThrow eid err) now campaign
            contact ctId s).tracker =
          trackerSet ⟨TrackKey.engine eid, ctId, campaign.id, campaign.userId, now⟩
            s.tracker ∧
        contactAt (initiateClaimedCall env (InitOutcome.createOkThenThrow eid err) now
            campaign contact ctId s).campaigns campaign.id ctId =
          some (failedContact cOld now err))) := by
  have hcontact : ∀ (cs : List Campaign) (notes : String), cs = s.campaigns → notes ≠ "" →
      contactAt (updateContactCallStatus campaign.id ctId CallStatus.failed now
          none none (some notes) cs).1 campaign.id ctId =
        some (failedContact cOld now notes) := by
    intro cs notes hcs hne
    rw [hcs, hStore, updateContactCallStatus_closed_form campaign.id ctId CallStatus.failed
      now none none (some notes) m1 m2 c0 l1 l2 cOld hm1 hc0id hcts hl1 hcid]
    unfold contactAt
    rw [find?_append_first (fun c => c.id = campaign.id) m1 _ m2
      (by intro x hx; simp [hm1 x hx]) (by simp [setStatsFrom, hc0id])]
    simp only [setStatsFrom, Option.some_bind]
    rw [find?_append_first (fun ct => ct.cid = ctId) l1 _ l2
      (by intro x hx; simp [hl1 x hx]) (by simp [applyContactUpdate, hcid])]
    simp [applyContactUpdate, failedContact, hne]
  constructor
  · intro hval outcome
    by_cases h1 : campaign.outboundProvider = none ∨ campaign.outboundPhoneNumber = none
    · rcases h1 with h1 | h1 <;>
      · refine ⟨by simp [initiateClaimedCall, h1], by simp [initiateClaimedCall, h1], ?_⟩
        refine ⟨"Missing outbound phone configuration", by decide, ?_⟩
        simp only [initiateClaimedCall, h1]
        simp
        exact hcontact _ _ rfl (by decide)
    · push_neg at h1
      obtain ⟨h1a, h1b⟩ := h1
      by_cases h2 : env.userTelephony campaign.userId = false
      · refine ⟨by simp [initiateClaimedCall, h1a, h1b, h2],
          by simp [initiateClaimedCall, h1a, h1b, h2], ?_⟩
        refine ⟨"User telephony settings not configured", by decide, ?_⟩
        simp [initiateClaimedCall, h1a, h1b, h2]
        exact hcontact _ _ rfl (by decide)
      · have h2' : env.userTelephony campaign.userId = true := by
          revert h2
          cases env.userTelephony campaign.userId <;> simp
        by_cases h3 : env.agents.contains campaign.agentId = false
        · have h3m : ¬ campaign.agentId ∈ env.agents := by simpa using h3
          refine ⟨by simp [initiateClaimedCall, h1a, h1b, h2', h3m],
            by simp [initiateClaimedCall, h1a, h1b, h2', h3m], ?_⟩
          refine ⟨"Agent not found", by decide, ?_⟩
          simp [initiateClaimedCall, h1a, h1b, h2', h3m]
          exact hcontact _ _ rfl (by decide)
        · have h3' : env.agents.contains campaign.agentId = true := by
            revert h3
            cases env.agents.contains campaign.agentId <;> simp
          rcases hval with h | h | h | h
          · exact absurd h h1a
          · exact absurd h h1b
          · rw [h2'] at h
            exact absurd h (by decide)
          · rw [h3'] at h
            exact absurd h (by decide)
  · intro hP hPh hT hA hKey
    have hAmem : campaign.agentId ∈ env.agents := by simpa using hA
    constructor
    · intro msg
      refine ⟨?_, ?_, ?_⟩
      · simp only [initiateClaimedCall, hP, hPh, hT, hA, hAmem]
        simp
        exact statesModify_acquire_release _ _
      · simp only [initiateClaimedCall, hP, hPh, hT, hA, hAmem]
        simp
        rw [trackerDelete_trackerSet_eq (TrackKey.pending campaign.id ctId)
          ⟨TrackKey.pending campaign.id ctId, ctId, campaign.id, campaign.userId, now⟩
          s.tracker rfl, trackerDelete_of_forall_ne _ _ hKey]
      · refine ⟨if msg = "" then "Failed to create call" else msg, ?_, ?_⟩
        · by_cases h : msg = "" <;> simp [h]
        · simp only [initiateClaimedCall, hP, hPh, hT, hA, hAmem]
          simp
          exact hcontact _ _ rfl (by by_cases h : msg = "" <;> simp [h])
    · intro eid err hne
      refine ⟨?_, ?_, ?_⟩
      · simp only [initiateClaimedCall, hP, hPh, hT, hA, hAmem]
        simp
        exact statesModify_acquire_release _ _
      · simp only [initiateClaimedCall, hP, hPh, hT, hA, hAmem]
        simp
        rw [trackerDelete_trackerSet_eq (TrackKey.pending campaign.id ctId)
          ⟨TrackKey.pending campaign.id ctId, ctId, campaign.id, campaign.userId, now⟩
          s.tracker rfl, trackerDelete_of_forall_ne _ _ hKey]
        apply trackerDelete_of_forall_ne
        intro e he
        rcases mem_trackerSet _ _ _ he with rfl | hmem
        · simp
        · exact hKey e hmem
      · simp only [initiateClaimedCall, hP, hPh, hT, hA, hAmem]
        simp [hne]
        exact hcontact _ _ rfl hne

end Talkrix

namespace Talkrix

/-- Witness for the C7 amended theorem: the engine rejects the call
(`createFail`) for the claimed contact of `campC1claimed`; the budget and
tracker return to their prior values and the contact is failed with a
note. -/
theorem C7_initiateClaimedCall_failure_paths_witness :
    (initiateClaimedCall env7 (InitOutcome.createFail "engine 500") 500 campC1claimed
        ctPendClaimed 11 stC7).userStates = stC7.userStates ∧
    (initiateClaimedCall env7 (InitOutcome.createFail "engine 500") 500 campC1claimed
        ctPendClaimed 11 stC7).tracker = stC7.tracker ∧
    ∃ m, m ≠ "" ∧
      contactAt (initiateClaimedCall env7 (InitOutcome.createFail "engine 500") 500
          campC1claimed ctPendClaimed 11 stC7).campaigns campC1claimed.id 11 =
        some (failedContact ctPendClaimed 500 m) :=
  ((C7_initiateClaimedCall_failure_paths env7 500 campC1claimed ctPendClaimed 11 stC7
      [] [] campC1claimed [ctDone] [] ctPendClaimed rfl (by simp) rfl (by decide)
      (by decide) (by decide)).2
    (by decide) (by decide) rfl (by decide) (by simp [stC7])).1 "engine 500"

end Talkrix

namespace Talkrix

/-! ## Claim C9 -/

/-- C9 counterexample: user 7 owns an outbound campaign whose status is
`paused` and which holds an in-progress contact.  `resetUserCallState`
zeroes the counter and drops the tracker entries, but its campaign query
filters on `status = 'active'`, so the in-progress contact of the paused
outbound campaign keeps its status and the reported count is 0 — the
claim's "in every one of that user's outbound campaigns (regardless of the
campaign's status)" fails, as does its count. -/
theorem C9_counterexample :
    campPaused.ctype = CampaignType.outbound ∧
    campPaused.userId = 7 ∧
    campPaused.status = CampaignStatus.paused ∧
    ctInProg.callStatus = CallStatus.inProgress ∧
    (resetUserCallState 7 600 stC9).2 = 0 ∧
    statusAt (resetUserCallState 7 600 stC9).1.campaigns 2 12 =
      some CallStatus.inProgress ∧
    (contactAt (resetUserCallState 7 600 stC9).1.campaigns 2 12).map
        (fun ct => ct.callNotes) = some none := by
  refine ⟨rfl, rfl, rfl, rfl, by decide, by decide, by decide⟩

end Talkrix

namespace Talkrix

theorem map_key_updateFirstWhere (k : α → β) (p : α → Bool) (f : α → α) (l : List α)
    (hf : ∀ x, k (f x) = k x) :
    (updateFirstWhere p f l).map k = l.map k := by
  induction l with
  | nil => rfl
  | cons a as ih =>
      by_cases hp : p a
      · simp [updateFirstWhere, hp, hf]
      · simp [updateFirstWhere, hp, ih]

theorem updateFirstWhere_preserve_nonmatch (k : α → β) (p : α → Bool) (f : α → α)
    (l1 : List α) (a : α) (l2 : List α)
    (hf : ∀ x, k (f x) = k x) (hpa : p a = false) :
    ∃ l1' l2', updateFirstWhere p f (l1 ++ a :: l2) = l1' ++ a :: l2' ∧
      l1'.map k = l1.map k := by
  induction l1 with
  | nil =>
      refine ⟨[], updateFirstWhere p f l2, ?_, rfl⟩
      simp [updateFirstWhere, hpa]
  | cons b bs ih =>
      by_cases hp : p b
      · exact ⟨f b :: bs, l2, by simp [updateFirstWhere, hp], by simp [hf]⟩
      · obtain ⟨l1', l2', hEq, hMap⟩ := ih
        exact ⟨b :: l1', l2', by simp [updateFirstWhere, hp, hEq], by simp [hMap]⟩

theorem resetContact_cid (now : Int) (ct : Contact) :
    (resetContact now ct).cid = ct.cid := by
  unfold resetContact failedContact
  split <;> rfl

theorem applyContactUpdate_reset (now : Int) (ct : Contact)
    (h : ct.callStatus = CallStatus.inProgress) :
    applyContactUpdate CallStatus.failed now none none
      (some "Reset due to manual state clear") ct = resetContact now ct := by
  unfold applyContactUpdate resetContact failedContact
  rw [if_pos h]
  simp

/-- A first-match contact update addressed at a campaign id other than `t`
keeps the first campaign with id `t` in place (target decomposition is
preserved, the prefix keeping its ids). -/
theorem updateContactCallStatus_preserves_other
    (cId ctId : Nat) (st : CallStatus) (now : Int)
    (callId : Option String) (dur : Option Int) (notes : Option String)
    (t : Nat) (hne : cId ≠ t)
    (M1 : List Campaign) (cCur : Campaign) (M2 : List Campaign)
    (hM1 : ∀ x ∈ M1, x.id ≠ t) (hCur : cCur.id = t) :
    ∃ M1' M2',
      (updateContactCallStatus cId ctId st now callId dur notes
        (M1 ++ cCur :: M2)).1 = M1' ++ cCur :: M2' ∧ ∀ x ∈ M1', x.id ≠ t := by
  unfold updateContactCallStatus
  cases hfind : (M1 ++ cCur :: M2).find? (campaignMatches cId ctId) with
  | none => exact ⟨M1, M2, rfl, hM1⟩
  | some camp =>
      have hCurP : campaignMatches cId ctId cCur = false := by
        simp [campaignMatches]
        intro h
        exact absurd (h ▸ hCur) (by simpa using hne.symm ∘ Eq.symm)
      obtain ⟨M1a, M2a, hEqa, hMapa⟩ := updateFirstWhere_preserve_nonmatch
        (fun c => c.id) (campaignMatches cId ctId)
        (fun c => { c with contacts := (updateFirstWhere (fun ct => ct.cid = ctId)
          (applyContactUpdate st now callId dur notes) c.contacts) })
        M1 cCur M2 (fun x => by rfl) hCurP
      have hCurP2 : decide (cCur.id = cId) = false := by
        simp [hCur]
        exact fun h => hne h.symm
      obtain ⟨M1b, M2b, hEqb, hMapb⟩ := updateFirstWhere_preserve_nonmatch
        (fun c => c.id) (fun c => c.id = cId)
        (setStatsFrom ((fun c => { c with contacts := (updateFirstWhere
          (fun ct => ct.cid = ctId) (applyContactUpdate st now callId dur notes)
          c.contacts) }) camp))
        M1a cCur M2a (fun x => by rfl) hCurP2
      refine ⟨M1b, M2b, by dsimp only; rw [hEqa, hEqb], ?_⟩
      intro x hx
      have : x.id ∈ M1b.map (fun c => c.id) := List.mem_map.mpr ⟨x, hx, rfl⟩
      rw [hMapb, hMapa] at this
      obtain ⟨y, hy, hyx⟩ := List.mem_map.mp this
      exact hyx ▸ hM1 y hy

end Talkrix

namespace Talkrix

theorem resetContactStep_preserves (campId : Nat) (now : Int) (acc2 : SysState × Nat)
    (ct : Contact) :
    (resetContactStep campId now acc2 ct).1.userStates = acc2.1.userStates ∧
    (resetContactStep campId now acc2 ct).1.tracker = acc2.1.tracker ∧
    (resetContactStep campId now acc2 ct).1.histories = acc2.1.histories := by
  unfold resetContactStep
  split <;> exact ⟨rfl, rfl, rfl⟩

theorem reset_inner_fold_preserves (campId : Nat) (now : Int) (cts : List Contact) :
    ∀ acc : SysState × Nat,
    (cts.foldl (resetContactStep campId now) acc).1.userStates = acc.1.userStates ∧
    (cts.foldl (resetContactStep campId now) acc).1.tracker = acc.1.tracker ∧
    (cts.foldl (resetContactStep campId now) acc).1.histories = acc.1.histories := by
  induction cts with
  | nil => intro acc; exact ⟨rfl, rfl, rfl⟩
  | cons ct cts ih =>
      intro acc
      have h1 := resetContactStep_preserves campId now acc ct
      have h2 := ih (resetContactStep campId now acc ct)
      simp only [List.foldl_cons]
      exact ⟨h2.1.trans h1.1, h2.2.1.trans h1.2.1, h2.2.2.trans h1.2.2⟩

theorem reset_outer_fold_preserves (now : Int) (L : List Campaign) :
    ∀ acc : SysState × Nat,
    (L.foldl (resetCampaignStep now) acc).1.userStates = acc.1.userStates ∧
    (L.foldl (resetCampaignStep now) acc).1.tracker = acc.1.tracker ∧
    (L.foldl (resetCampaignStep now) acc).1.histories = acc.1.histories := by
  induction L with
  | nil => intro acc; exact ⟨rfl, rfl, rfl⟩
  | cons d ds ih =>
      intro acc
      have h1 := reset_inner_fold_preserves d.id now d.contacts acc
      have h2 := ih (resetCampaignStep now acc d)
      simp only [List.foldl_cons]
      exact ⟨h2.1.trans h1.1, h2.2.1.trans h1.2.1, h2.2.2.trans h1.2.2⟩

theorem reset_inner_fold_count (campId : Nat) (now : Int) (cts : List Contact) :
    ∀ acc : SysState × Nat,
    (cts.foldl (resetContactStep campId now) acc).2 =
      acc.2 + cts.countP (fun x => x.callStatus = CallStatus.inProgress) := by
  induction cts with
  | nil => intro acc; simp
  | cons ct cts ih =>
      intro acc
      simp only [List.foldl_cons, ih]
      by_cases h : ct.callStatus = CallStatus.inProgress
      · simp [resetContactStep, h, List.countP_cons]
        omega
      · simp [resetContactStep, h, List.countP_cons]

theorem reset_outer_fold_count (now : Int) (L : List Campaign) :
    ∀ acc : SysState × Nat,
    (L.foldl (resetCampaignStep now) acc).2 =
      acc.2 + (L.map (fun c =>
        c.contacts.countP (fun x => x.callStatus = CallStatus.inProgress))).sum := by
  induction L with
  | nil => intro acc; simp
  | cons d ds ih =>
      intro acc
      simp only [List.foldl_cons, ih, resetCampaignStep,
        reset_inner_fold_count d.id now d.contacts acc]
      simp
      omega

theorem reset_inner_fold_other (campId : Nat) (now : Int) (t : Nat)
    (hne : campId ≠ t) (cts : List Contact) :
    ∀ (acc : SysState × Nat) (M1 : List Campaign) (cCur : Campaign) (M2 : List Campaign),
      acc.1.campaigns = M1 ++ cCur :: M2 → (∀ x ∈ M1, x.id ≠ t) → cCur.id = t →
      ∃ M1' M2',
        (cts.foldl (resetContactStep campId now) acc).1.campaigns = M1' ++ cCur :: M2' ∧
        (∀ x ∈ M1', x.id ≠ t) := by
  induction cts with
  | nil =>
      intro acc M1 cCur M2 hdec hM1 hCur
      exact ⟨M1, M2, hdec, hM1⟩
  | cons ct cts ih =>
      intro acc M1 cCur M2 hdec hM1 hCur
      by_cases h : ct.callStatus = CallStatus.inProgress
      · obtain ⟨M1a, M2a, hEqa, hM1a⟩ := updateContactCallStatus_preserves_other
          campId ct.cid CallStatus.failed now none none
          (some "Reset due to manual state clear") t hne M1 cCur M2 hM1 hCur
        simp only [List.foldl_cons]
        refine ih (resetContactStep campId now acc ct) M1a cCur M2a ?_ hM1a hCur
        simp only [resetContactStep, if_pos h]
        rw [hdec]
        exact hEqa
      · simp only [List.foldl_cons]
        refine ih (resetContactStep campId now acc ct) M1 cCur M2 ?_ hM1 hCur
        simp [resetContactStep, h, hdec]

theorem reset_outer_fold_other (now : Int) (t : Nat) (L : List Campaign)
    (hL : ∀ d ∈ L, d.id ≠ t) :
    ∀ (acc : SysState × Nat) (M1 : List Campaign) (cCur : Campaign) (M2 : List Campaign),
      acc.1.campaigns = M1 ++ cCur :: M2 → (∀ x ∈ M1, x.id ≠ t) → cCur.id = t →
      ∃ M1' M2',
        (L.foldl (resetCampaignStep now) acc).1.campaigns = M1' ++ cCur :: M2' ∧
        (∀ x ∈ M1', x.id ≠ t) := by
  induction L with
  | nil =>
      intro acc M1 cCur M2 hdec hM1 hCur
      exact ⟨M1, M2, hdec, hM1⟩
  | cons d ds ih =>
      intro acc M1 cCur M2 hdec hM1 hCur
      obtain ⟨M1a, M2a, hEqa, hM1a⟩ := reset_inner_fold_other d.id now t
        (hL d (by simp)) d.contacts acc M1 cCur M2 hdec hM1 hCur
      simp only [List.foldl_cons]
      exact ih (fun x hx => hL x (by simp [hx])) (resetCampaignStep now acc d)
        M1a cCur M2a hEqa hM1a hCur

end Talkrix

namespace Talkrix

theorem setStatsFrom_id (a c : Campaign) : (setStatsFrom a c).id = c.id := rfl

theorem setStatsFrom_contacts (a c : Campaign) :
    (setStatsFrom a c).contacts = c.contacts := rfl

theorem reset_inner_fold_self (campId : Nat) (now : Int) :
    ∀ (rest done : List Contact), ((done ++ rest).map (fun c => c.cid)).Nodup →
    ∀ (acc : SysState × Nat) (M1 : List Campaign) (cCur : Campaign) (M2 : List Campaign),
      acc.1.campaigns = M1 ++ cCur :: M2 → (∀ x ∈ M1, x.id ≠ campId) →
      cCur.id = campId → cCur.contacts = resetContacts now done ++ rest →
      ∃ M1' M2' cFin,
        (rest.foldl (resetContactStep campId now) acc).1.campaigns =
          M1' ++ cFin :: M2' ∧
        (∀ x ∈ M1', x.id ≠ campId) ∧ cFin.id = campId ∧
        cFin.contacts = resetContacts now (done ++ rest) := by
  intro rest
  induction rest with
  | nil =>
      intro done hnd acc M1 cCur M2 hdec hM1 hCur hcts
      exact ⟨M1, M2, cCur, hdec, hM1, hCur, by simpa using hcts⟩
  | cons ct rest ih =>
      intro done hnd acc M1 cCur M2 hdec hM1 hCur hcts
      have hassoc : done ++ ct :: rest = (done ++ [ct]) ++ rest := by simp
      have hnd' : (((done ++ [ct]) ++ rest).map (fun c => c.cid)).Nodup := by
        rw [← hassoc]; exact hnd
      by_cases h : ct.callStatus = CallStatus.inProgress
      · have hctnot : ct.cid ∉ (done.map (fun c => c.cid)) := by
          have := hnd
          simp only [List.map_append, List.map_cons] at this
          have h2 := (List.nodup_append.mp this).2.2
          intro hmem
          exact h2 hmem (by simp)
        have hl1 : ∀ x ∈ resetContacts now done, x.cid ≠ ct.cid := by
          intro x hx
          obtain ⟨y, hy, rfl⟩ := List.mem_map.mp hx
          rw [resetContact_cid]
          intro hEq
          exact hctnot (hEq ▸ List.mem_map.mpr ⟨y, hy, rfl⟩)
        have hclosed := updateContactCallStatus_closed_form campId ct.cid
          CallStatus.failed now none none (some "Reset due to manual state clear")
          M1 M2 cCur (resetContacts now done) rest ct hM1 hCur hcts hl1 rfl
        simp only [List.foldl_cons]
        have hstep : (resetContactStep campId now acc ct).1.campaigns =
            M1 ++ setStatsFrom
              { cCur with contacts := (resetContacts now done ++
                  applyContactUpdate CallStatus.failed now none none
                    (some "Reset due to manual state clear") ct :: rest) }
              { cCur with contacts := (resetContacts now done ++
                  applyContactUpdate CallStatus.failed now none none
                    (some "Reset due to manual state clear") ct :: rest) }
            :: M2 := by
          simp only [resetContactStep, if_pos h]
          rw [hdec, hclosed]
        rw [hassoc]
        refine ih (done ++ [ct]) hnd' (resetContactStep campId now acc ct)
          M1 _ M2 hstep hM1 (by rw [setStatsFrom_id, hCur]) ?_
        rw [setStatsFrom_contacts]
        simp only [applyContactUpdate_reset now ct h]
        simp [resetContacts]
      · have hrc : resetContact now ct = ct := by
          unfold resetContact
          rw [if_neg h]
        simp only [List.foldl_cons]
        rw [hassoc]
        refine ih (done ++ [ct]) hnd' (resetContactStep campId now acc ct)
          M1 cCur M2 ?_ hM1 hCur ?_
        · simp [resetContactStep, h, hdec]
        · rw [hcts]
          simp [resetContacts, hrc]

end Talkrix

namespace Talkrix

theorem reset_fold_campaign_spec (now : Int) (u : Nat) (acc0 : SysState × Nat)
    (m1 m2 : List Campaign) (camp : Campaign)
    (hacc : acc0.1.campaigns = m1 ++ camp :: m2)
    (hm1 : ∀ x ∈ m1, x.id ≠ camp.id) (hm2 : ∀ x ∈ m2, x.id ≠ camp.id)
    (hnd : (camp.contacts.map (fun c => c.cid)).Nodup)
    (hu : camp.userId = u) (hst : camp.status = CampaignStatus.active)
    (hty : camp.ctype = CampaignType.outbound) :
    ((List.foldl (resetCampaignStep now) acc0
        (List.filter (userActiveOutbound u) (m1 ++ camp :: m2))).1.campaigns.find?
      (fun c => c.id = camp.id)).map (fun c => c.contacts) =
      some (resetContacts now camp.contacts) := by
  have hpred : userActiveOutbound u camp = true := by
    simp [userActiveOutbound, hu, hst, hty]
  have hsplit : List.filter (userActiveOutbound u) (m1 ++ camp :: m2) =
      m1.filter (userActiveOutbound u) ++ camp :: m2.filter (userActiveOutbound u) := by
    simp [List.filter_append, List.filter_cons, hpred]
  rw [hsplit, List.foldl_append, List.foldl_cons]
  obtain ⟨M1a, M2a, hEqa, hM1a⟩ := reset_outer_fold_other now camp.id
    (m1.filter (userActiveOutbound u))
    (fun d hd => hm1 d (List.mem_of_mem_filter hd)) acc0 m1 camp m2 hacc hm1 rfl
  obtain ⟨M1b, M2b, cFin, hEqb, hM1b, hFinId, hFinCts⟩ :=
    reset_inner_fold_self camp.id now camp.contacts [] (by simpa using hnd)
      (List.foldl (resetCampaignStep now) acc0 (m1.filter (userActiveOutbound u)))
      M1a camp M2a hEqa hM1a rfl (by simp [resetContacts])
  have hEqb' : (resetCampaignStep now
      (List.foldl (resetCampaignStep now) acc0 (m1.filter (userActiveOutbound u)))
      camp).1.campaigns = M1b ++ cFin :: M2b := hEqb
  obtain ⟨M1c, M2c, hEqc, hM1c⟩ := reset_outer_fold_other now camp.id
    (m2.filter (userActiveOutbound u))
    (fun d hd => hm2 d (List.mem_of_mem_filter hd))
    (resetCampaignStep now
      (List.foldl (resetCampaignStep now) acc0 (m1.filter (userActiveOutbound u))) camp)
    M1b cFin M2b hEqb' hM1b hFinId
  rw [hEqc]
  rw [find?_append_first (fun c => c.id = camp.id) M1c cFin M2c
    (by intro x hx; simp [hM1c x hx]) (by simp [hFinId])]
  simp [hFinCts]

/-- C9 amended: `resetUserCallState(userId)` zeroes the user's in-memory
`activeCalls` counter and releases the latch, removes every
`ActiveCallRecord` belonging to that user, transitions every `in-progress`
contact — but only in the user's outbound campaigns whose status is
`active` (the query filters on `status: 'active'`) — to `failed` with
notes `"Reset due to manual state clear"`, and returns as its count the
number of in-progress contacts of exactly those active outbound
campaigns. -/
theorem C9_resetUserCallState_contract (u : Nat) (now : Int) (s : SysState) :
    (∀ e ∈ (resetUserCallState u now s).1.tracker, e.userId ≠ u) ∧
    (∀ st0, s.userStates.find? (fun st => st.userId = u) = some st0 →
      (resetUserCallState u now s).1.userStates.find? (fun st => st.userId = u) =
        some { st0 with activeCalls := 0, isProcessing := false }) ∧
    ((resetUserCallState u now s).2 =
      ((s.campaigns.filter (userActiveOutbound u)).map
        (fun c => c.contacts.countP
          (fun x => x.callStatus = CallStatus.inProgress))).sum) ∧
    (∀ m1 m2 camp, s.campaigns = m1 ++ camp :: m2 →
      (∀ x ∈ m1, x.id ≠ camp.id) → (∀ x ∈ m2, x.id ≠ camp.id) →
      (camp.contacts.map (fun c => c.cid)).Nodup →
      camp.userId = u → camp.status = CampaignStatus.active →
      camp.ctype = CampaignType.outbound →
      ((resetUserCallState u now s).1.campaigns.find? (fun c => c.id = camp.id)).map
          (fun c => c.contacts) = some (resetContacts now camp.contacts)) := by
  unfold resetUserCallState
  refine ⟨?_, ?_, ?_, ?_⟩
  · intro e he
    rw [(reset_outer_fold_preserves now _ _).2.1] at he
    have he' : e ∈ s.tracker.filter (fun ci => ci.userId ≠ u) := he
    have := (List.mem_filter.mp he').2
    simpa using this
  · intro st0 hst0
    rw [(reset_outer_fold_preserves now _ _).1]
    show (statesModify u (fun st => { st with activeCalls := 0, isProcessing := false })
      s.userStates).find? (fun st => st.userId = u) = _
    rw [statesModify, find?_updateFirstWhere_self _ _ _ (fun a => by rfl), hst0]
    rfl
  · rw [reset_outer_fold_count]
    simp
  · intro m1 m2 camp hdec hm1 hm2 hnd hu hst hty
    simp only [hdec]
    exact reset_fold_campaign_spec now u _ m1 m2 camp rfl hm1 hm2 hnd hu hst hty

end Talkrix

namespace Talkrix

/-- Witness for the C9 amended theorem on `stC7`: user 7's state is
zeroed, the one in-progress contact of the active outbound campaign is
reset, and the count is the number of in-progress contacts. -/
theorem C9_resetUserCallState_contract_witness :
    (resetUserCallState 7 600 stC7).1.userStates.find? (fun st => st.userId = 7) =
      some { userId := 7, activeCalls := 0, maxConcurrentCalls := 2,
             isProcessing := false, activeCampaigns := [1] } ∧
    (resetUserCallState 7 600 stC7).2 =
      ((stC7.campaigns.filter (userActiveOutbound 7)).map
        (fun c => c.contacts.countP
          (fun x => x.callStatus = CallStatus.inProgress))).sum ∧
    ((resetUserCallState 7 600 stC7).1.campaigns.find?
        (fun c => c.id = campC1claimed.id)).map (fun c => c.contacts) =
      some (resetContacts 600 campC1claimed.contacts) :=
  ⟨(C9_resetUserCallState_contract 7 600 stC7).2.1
      ⟨7, 1, 2, false, [1]⟩ (by decide),
   (C9_resetUserCallState_contract 7 600 stC7).2.2.1,
   (C9_resetUserCallState_contract 7 600 stC7).2.2.2 [] [] campC1claimed
      (by decide) (by simp) (by simp) (by decide) (by decide) (by decide) (by decide)⟩

end Talkrix

namespace Talkrix

theorem mem_updateFirstWhere (p : α → Bool) (f : α → α) (l : List α) (x : α)
    (hx : x ∈ updateFirstWhere p f l) : x ∈ l ∨ ∃ y ∈ l, x = f y := by
  induction l with
  | nil => simpa [updateFirstWhere] using hx
  | cons a as ih =>
      by_cases hp : p a
      · simp [updateFirstWhere, hp] at hx
        rcases hx with rfl | h
        · exact Or.inr ⟨a, by simp, rfl⟩
        · exact Or.inl (by simp [h])
      · simp [updateFirstWhere, hp] at hx
        rcases hx with rfl | h
        · exact Or.inl (by simp)
        · rcases ih h with h' | ⟨y, hy, rfl⟩
          · exact Or.inl (by simp [h'])
          · exact Or.inr ⟨y, by simp [hy], rfl⟩


theorem statesModify_drop_preserved (u cid u' cid' : Nat)
    (states : List UserCallState) (h : StatesDropped u cid states) :
    StatesDropped u cid (statesModify u'
      (fun st => { st with activeCampaigns := st.activeCampaigns.erase cid' }) states) := by
  intro stU hstU
  by_cases hu : u' = u
  · subst hu
    rw [statesModify, find?_updateFirstWhere_self _ _ _ (fun a => by rfl)] at hstU
    cases hfind : states.find? (fun st => st.userId = u') with
    | none => rw [hfind] at hstU; cases hstU
    | some st0 =>
        rw [hfind] at hstU
        have hstU' : stU = { st0 with activeCampaigns := st0.activeCampaigns.erase cid' } := by
          cases hstU
          rfl
        subst hstU'
        intro hmem
        exact h st0 hfind (List.mem_of_mem_erase hmem)
  · rw [statesModify, find?_updateFirstWhere_untouched
        (fun st => st.userId = u') (fun st => st.userId = u) _ states
        (fun a ha => by
          simp only [decide_eq_true_eq] at ha
          simpa using ha ▸ hu)
        (fun a => by rfl)] at hstU
    exact h stU hstU

theorem statesModify_nodup_preserved (u' cid' : Nat)
    (states : List UserCallState) (h : StatesSetsNodup states) :
    StatesSetsNodup (statesModify u'
      (fun st => { st with activeCampaigns := st.activeCampaigns.erase cid' }) states) := by
  intro st hst
  rcases mem_updateFirstWhere _ _ _ _ hst with h' | ⟨y, hy, rfl⟩
  · exact h st h'
  · exact (h y hy).erase _

end Talkrix

namespace Talkrix

theorem completeDueToEndTime_other (cId t : Nat) (now : Int) (s : SysState)
    (hne : cId ≠ t)
    (M1 : List Campaign) (cCur : Campaign) (M2 : List Campaign)
    (hdec : s.campaigns = M1 ++ cCur :: M2) (hM1 : ∀ x ∈ M1, x.id ≠ t)
    (hCur : cCur.id = t) (u cid : Nat) :
    ∃ M1' M2',
      (completeCampaignDueToEndTime cId now s).campaigns = M1' ++ cCur :: M2' ∧
      (∀ x ∈ M1', x.id ≠ t) ∧
      (StatesDropped u cid s.userStates →
        StatesDropped u cid (completeCampaignDueToEndTime cId now s).userStates) ∧
      (StatesSetsNodup s.userStates →
        StatesSetsNodup (completeCampaignDueToEndTime cId now s).userStates) := by
  unfold completeCampaignDueToEndTime
  cases hfind : s.campaigns.find? (fun c => c.id = cId) with
  | none => exact ⟨M1, M2, hdec, hM1, fun h => h, fun h => h⟩
  | some camp =>
      have hCurP : decide (cCur.id = cId) = false := by
        simp [hCur]
        exact fun h => hne h.symm
      have hdrop' := fun hd => statesModify_drop_preserved u cid camp.userId cId
        s.userStates hd
      have hnodup' := fun hn => statesModify_nodup_preserved camp.userId cId
        s.userStates hn
      by_cases hp : camp.contacts.countP (fun c => c.callStatus = CallStatus.pending) > 0
      · simp only [if_pos hp]
        obtain ⟨M1', M2', hEq, hMap⟩ := updateFirstWhere_preserve_nonmatch
          (fun c => c.id) (fun c => c.id = cId)
          (fun c => { c with status := CampaignStatus.pausedTimeWindow,
                             pausedReason := some "end-time-reached",
                             lastProcessedAt := some now })
          M1 cCur M2 (fun x => rfl) hCurP
        refine ⟨M1', M2', ?_, ?_, hdrop', hnodup'⟩
        · simpa [hdec] using hEq
        · intro x hx
          have : x.id ∈ M1'.map (fun c => c.id) := List.mem_map.mpr ⟨x, hx, rfl⟩
          rw [hMap] at this
          obtain ⟨y, hy, hyx⟩ := List.mem_map.mp this
          exact hyx ▸ hM1 y hy
      · simp only [if_neg hp]
        unfold updateStatusCampaign
        obtain ⟨M1', M2', hEq, hMap⟩ := updateFirstWhere_preserve_nonmatch
          (fun c => c.id) (fun c => c.id = cId)
          (fun c =>
            if CampaignStatus.completed = CampaignStatus.active ||
               CampaignStatus.completed = CampaignStatus.scheduled then
              { c with status := CampaignStatus.completed, startedAt := some now }
            else if CampaignStatus.completed = CampaignStatus.completed then
              { c with status := CampaignStatus.completed, completedAt := some now }
            else
              { c with status := CampaignStatus.completed })
          M1 cCur M2 (fun x => by
            by_cases hq : (CampaignStatus.completed = CampaignStatus.active ||
               CampaignStatus.completed = CampaignStatus.scheduled : Prop) <;> simp [hq]) hCurP
        refine ⟨M1', M2', ?_, ?_, hdrop', hnodup'⟩
        · simpa [hdec] using hEq
        · intro x hx
          have : x.id ∈ M1'.map (fun c => c.id) := List.mem_map.mpr ⟨x, hx, rfl⟩
          rw [hMap] at this
          obtain ⟨y, hy, hyx⟩ := List.mem_map.mp this
          exact hyx ▸ hM1 y hy

end Talkrix

namespace Talkrix

theorem statesModify_drop_self (u cid : Nat) (states : List UserCallState)
    (hnodup : StatesSetsNodup states) :
    StatesDropped u cid (statesModify u
      (fun st => { st with activeCampaigns := st.activeCampaigns.erase cid }) states) := by
  intro stU hstU
  rw [statesModify, find?_updateFirstWhere_self _ _ _ (fun a => by rfl)] at hstU
  cases hfind : states.find? (fun st => st.userId = u) with
  | none => rw [hfind] at hstU; cases hstU
  | some st0 =>
      rw [hfind] at hstU
      have hstU' : stU = { st0 with activeCampaigns := st0.activeCampaigns.erase cid } := by
        cases hstU
        rfl
      subst hstU'
      intro hmem
      have hnd : st0.activeCampaigns.Nodup :=
        hnodup st0 (List.mem_of_find?_eq_some hfind)
      exact ((hnd.mem_erase_iff).mp hmem).1 rfl

theorem completeDueToEndTime_self (now : Int) (s : SysState)
    (M1 : List Campaign) (camp : Campaign) (M2 : List Campaign)
    (hdec : s.campaigns = M1 ++ camp :: M2) (hM1 : ∀ x ∈ M1, x.id ≠ camp.id)
    (hnodup : StatesSetsNodup s.userStates) :
    (0 < camp.contacts.countP (fun c => c.callStatus = CallStatus.pending) →
      (completeCampaignDueToEndTime camp.id now s).campaigns =
        M1 ++ { camp with status := CampaignStatus.pausedTimeWindow,
                          pausedReason := some "end-time-reached",
                          lastProcessedAt := some now } :: M2) ∧
    (camp.contacts.countP (fun c => c.callStatus = CallStatus.pending) = 0 →
      (completeCampaignDueToEndTime camp.id now s).campaigns =
        M1 ++ { camp with status := CampaignStatus.completed,
                          completedAt := some now } :: M2) ∧
    StatesDropped camp.userId camp.id
      (completeCampaignDueToEndTime camp.id now s).userStates ∧
    StatesSetsNodup (completeCampaignDueToEndTime camp.id now s).userStates := by
  have hM1' : ∀ x ∈ M1, decide (x.id = camp.id) = false := fun x hx => by
    simp [hM1 x hx]
  have hfind : s.campaigns.find? (fun c => c.id = camp.id) = some camp := by
    rw [hdec]
    exact find?_append_first _ M1 camp M2 hM1' (by simp)
  unfold completeCampaignDueToEndTime
  rw [hfind]
  by_cases hp : 0 < camp.contacts.countP (fun c => c.callStatus = CallStatus.pending)
  · simp only [if_pos hp]
    refine ⟨fun _ => ?_, fun h0 => absurd h0 (by omega), ?_, ?_⟩
    · show updateFirstWhere (fun c => c.id = camp.id) _ s.campaigns = _
      rw [hdec]
      exact updateFirstWhere_append _ _ M1 camp M2 hM1' (by simp)
    · exact statesModify_drop_self camp.userId camp.id s.userStates hnodup
    · exact statesModify_nodup_preserved camp.userId camp.id s.userStates hnodup
  · simp only [if_neg hp]
    refine ⟨fun h0 => absurd h0 hp, fun _ => ?_, ?_, ?_⟩
    · show updateStatusCampaign camp.id CampaignStatus.completed now s.campaigns = _
      unfold updateStatusCampaign
      rw [hdec, updateFirstWhere_append _ _ M1 camp M2 hM1' (by simp)]
      simp
    · exact statesModify_drop_self camp.userId camp.id s.userStates hnodup
    · exact statesModify_nodup_preserved camp.userId camp.id s.userStates hnodup

end Talkrix

namespace Talkrix

theorem stop_fold_preserve (now : Int) (t : Nat) (l : List Campaign)
    (hl : ∀ c ∈ l, c.id ≠ t) :
    ∀ (s : SysState) (M1 : List Campaign) (cCur : Campaign) (M2 : List Campaign)
      (u cid : Nat),
      s.campaigns = M1 ++ cCur :: M2 → (∀ x ∈ M1, x.id ≠ t) → cCur.id = t →
      ∃ M1' M2',
        (l.foldl (stopStep now) s).campaigns = M1' ++ cCur :: M2' ∧
        (∀ x ∈ M1', x.id ≠ t) ∧
        (StatesDropped u cid s.userStates →
          StatesDropped u cid (l.foldl (stopStep now) s).userStates) ∧
        (StatesSetsNodup s.userStates →
          StatesSetsNodup (l.foldl (stopStep now) s).userStates) := by
  induction l with
  | nil =>
      intro s M1 cCur M2 u cid hdec hM1 hCur
      exact ⟨M1, M2, hdec, hM1, fun h => h, fun h => h⟩
  | cons c cs ih =>
      intro s M1 cCur M2 u cid hdec hM1 hCur
      have hne : c.id ≠ t := hl c (by simp)
      obtain ⟨N1, N2, hdec1, hN1, hd1, hn1⟩ :=
        completeDueToEndTime_other c.id t now s hne M1 cCur M2 hdec hM1 hCur u cid
      obtain ⟨M1', M2', hdec2, hM1', hd2, hn2⟩ :=
        ih (fun x hx => hl x (by simp [hx])) (stopStep now s c) N1 cCur N2 u cid
          hdec1 hN1 hCur
      exact ⟨M1', M2', hdec2, hM1', fun h => hd2 (hd1 h), fun h => hn2 (hn1 h)⟩

end Talkrix

namespace Talkrix

/-- C6: on a scheduler tick, for every outbound campaign with status
`active` whose `shouldStopCampaign` holds, the stop phase (through
`completeCampaignDueToEndTime`, lines 987-1025): if at least one contact is
still `pending`, sets the campaign's status to `paused-time-window` with
`pausedReason = "end-time-reached"` and `lastProcessedAt = now`; otherwise
sets its status to `completed` (stamping `completedAt`); and in both cases
removes the campaign from its user's in-memory active-campaigns set. -/
theorem C6_stop_phase_contract (tenv : TimeEnv) (now : Int) (s : SysState)
    (m1 : List Campaign) (camp : Campaign) (m2 : List Campaign)
    (hdec : s.campaigns = m1 ++ camp :: m2)
    (hm1 : ∀ x ∈ m1, x.id ≠ camp.id) (hm2 : ∀ x ∈ m2, x.id ≠ camp.id)
    (hactive : camp.status = CampaignStatus.active)
    (houtbound : camp.ctype = CampaignType.outbound)
    (hstop : campaignShouldStop tenv camp = true)
    (hnodup : StatesSetsNodup s.userStates) :
    (0 < camp.contacts.countP (fun c => c.callStatus = CallStatus.pending) →
      (stopPhase tenv now s).campaigns.find? (fun c => c.id = camp.id) =
        some { camp with status := CampaignStatus.pausedTimeWindow,
                         pausedReason := some "end-time-reached",
                         lastProcessedAt := some now }) ∧
    (camp.contacts.countP (fun c => c.callStatus = CallStatus.pending) = 0 →
      (stopPhase tenv now s).campaigns.find? (fun c => c.id = camp.id) =
        some { camp with status := CampaignStatus.completed,
                         completedAt := some now }) ∧
    StatesDropped camp.userId camp.id (stopPhase tenv now s).userStates := by
  have hq : (camp.status = CampaignStatus.active &&
      camp.ctype = CampaignType.outbound) = true := by
    simp [hactive, houtbound]
  have hfold : stopPhase tenv now s =
      (((m1.filter (fun c => c.status = CampaignStatus.active &&
            c.ctype = CampaignType.outbound)).filter (campaignShouldStop tenv) ++
        camp ::
        (m2.filter (fun c => c.status = CampaignStatus.active &&
            c.ctype = CampaignType.outbound)).filter
          (campaignShouldStop tenv)).foldl (stopStep now) s) := by
    unfold stopPhase
    rw [hdec]
    simp [List.filter_append, List.filter_cons, hq, hstop]
  obtain ⟨N1, N2, hdec1, hN1, _, hn1⟩ :=
    stop_fold_preserve now camp.id
      ((m1.filter (fun c => c.status = CampaignStatus.active &&
          c.ctype = CampaignType.outbound)).filter (campaignShouldStop tenv))
      (fun c hc => hm1 c (List.mem_of_mem_filter (List.mem_of_mem_filter hc)))
      s m1 camp m2 camp.userId camp.id hdec hm1 rfl
  obtain ⟨hpark, hcomp, hdrop2, hnodup2⟩ :=
    completeDueToEndTime_self now
      (((m1.filter (fun c => c.status = CampaignStatus.active &&
          c.ctype = CampaignType.outbound)).filter
            (campaignShouldStop tenv)).foldl (stopStep now) s)
      N1 camp N2 hdec1 hN1 (hn1 hnodup)
  rw [hfold, List.foldl_append, List.foldl_cons]
  simp only [stopStep]
  by_cases hp : 0 < camp.contacts.countP (fun c => c.callStatus = CallStatus.pending)
  · obtain ⟨P1, P2, hdec3, hP1, hd3, _⟩ :=
      stop_fold_preserve now camp.id
        ((m2.filter (fun c => c.status = CampaignStatus.active &&
            c.ctype = CampaignType.outbound)).filter (campaignShouldStop tenv))
        (fun c hc => hm2 c (List.mem_of_mem_filter (List.mem_of_mem_filter hc)))
        (completeCampaignDueToEndTime camp.id now
          (((m1.filter (fun c => c.status = CampaignStatus.active &&
              c.ctype = CampaignType.outbound)).filter
                (campaignShouldStop tenv)).foldl (stopStep now) s))
        N1
        { camp with status := CampaignStatus.pausedTimeWindow,
                    pausedReason := some "end-time-reached",
                    lastProcessedAt := some now }
        N2 camp.userId camp.id (hpark hp) hN1 rfl
    have hP1' : ∀ x ∈ P1, decide (x.id = camp.id) = false := fun x hx => by
      simp [hP1 x hx]
    refine ⟨fun _ => ?_, fun h0 => absurd h0 (by omega), hd3 hdrop2⟩
    rw [hdec3]
    exact find?_append_first _ P1 _ P2 hP1' (by simp)
  · have hp0 : camp.contacts.countP (fun c => c.callStatus = CallStatus.pending) = 0 := by
      omega
    obtain ⟨P1, P2, hdec3, hP1, hd3, _⟩ :=
      stop_fold_preserve now camp.id
        ((m2.filter (fun c => c.status = CampaignStatus.active &&
            c.ctype = CampaignType.outbound)).filter (campaignShouldStop tenv))
        (fun c hc => hm2 c (List.mem_of_mem_filter (List.mem_of_mem_filter hc)))
        (completeCampaignDueToEndTime camp.id now
          (((m1.filter (fun c => c.status = CampaignStatus.active &&
              c.ctype = CampaignType.outbound)).filter
                (campaignShouldStop tenv)).foldl (stopStep now) s))
        N1
        { camp with status := CampaignStatus.completed, completedAt := some now }
        N2 camp.userId camp.id (hcomp hp0) hN1 rfl
    have hP1' : ∀ x ∈ P1, decide (x.id = camp.id) = false := fun x hx => by
      simp [hP1 x hx]
    refine ⟨fun h0 => absurd h0 hp, fun _ => ?_, hd3 hdrop2⟩
    rw [hdec3]
    exact find?_append_first _ P1 _ P2 hP1' (by simp)

end Talkrix

namespace Talkrix


theorem C6_stop_phase_contract_witness :
    (0 < campC6.contacts.countP (fun c => c.callStatus = CallStatus.pending) →
      (stopPhase tenvC6 62000 stC6).campaigns.find? (fun c => c.id = campC6.id) =
        some { campC6 with status := CampaignStatus.pausedTimeWindow,
                           pausedReason := some "end-time-reached",
                           lastProcessedAt := some 62000 }) ∧
    (campC6.contacts.countP (fun c => c.callStatus = CallStatus.pending) = 0 →
      (stopPhase tenvC6 62000 stC6).campaigns.find? (fun c => c.id = campC6.id) =
        some { campC6 with status := CampaignStatus.completed,
                           completedAt := some 62000 }) ∧
    StatesDropped campC6.userId campC6.id (stopPhase tenvC6 62000 stC6).userStates :=
  C6_stop_phase_contract tenvC6 62000 stC6 [] campC6 [] rfl
    (by simp) (by simp) rfl rfl rfl
    (by intro st hst
        simp [stC6] at hst
        subst hst
        decide)

end Talkrix

namespace Talkrix

theorem updateContactCallStatusByCallId_closed_form
    (cId : Nat) (callId : String) (st : CallStatus) (now : Int) (dur : Option Int)
    (m1 m2 : List Campaign) (c0 : Campaign) (l1 l2 : List Contact) (cOld : Contact)
    (hm1 : ∀ x ∈ m1, x.id ≠ cId) (hc0id : c0.id = cId)
    (hcts : c0.contacts = l1 ++ cOld :: l2)
    (hl1 : ∀ x ∈ l1, x.callId ≠ some callId) (hcid : cOld.callId = some callId) :
    updateContactCallStatusByCallId cId callId st now dur (m1 ++ c0 :: m2) =
      (m1 ++ setStatsFrom
          { c0 with contacts := l1 ++ applyContactUpdate st now none dur none cOld :: l2 }
          { c0 with contacts := l1 ++ applyContactUpdate st now none dur none cOld :: l2 }
        :: m2,
       true) := by
  have hm1' : ∀ x ∈ m1,
      (x.id = cId && x.contacts.any (fun ct => ct.callId = some callId) : Bool) = false := by
    intro x hx
    simp [hm1 x hx]
  have hc0m : (c0.id = cId &&
      c0.contacts.any (fun ct => ct.callId = some callId) : Bool) = true := by
    simp [hc0id, hcts]
    exact Or.inr (Or.inl hcid)
  have hfind : (m1 ++ c0 :: m2).find? (fun c =>
      c.id = cId && c.contacts.any (fun ct => ct.callId = some callId)) = some c0 :=
    find?_append_first _ m1 c0 m2 hm1' hc0m
  have hl1' : ∀ x ∈ l1, decide (x.callId = some callId) = false := by
    intro x hx
    simp [hl1 x hx]
  have hctupd : updateFirstWhere (fun ct => ct.callId = some callId)
      (applyContactUpdate st now none dur none) c0.contacts =
      l1 ++ applyContactUpdate st now none dur none cOld :: l2 := by
    rw [hcts]
    exact updateFirstWhere_append _ _ l1 cOld l2 hl1' (by simp [hcid])
  have hm1id : ∀ x ∈ m1, decide (x.id = cId) = false := by
    intro x hx
    simp [hm1 x hx]
  simp only [updateContactCallStatusByCallId, hfind]
  rw [updateFirstWhere_append _ _ m1 c0 m2 hm1' hc0m]
  simp only [hctupd]
  rw [updateFirstWhere_append _ _ m1 _ m2 hm1id (by simp [hc0id])]

end Talkrix

namespace Talkrix

theorem engineEndedRowUpdate_idem (ev : EngineEndedEvent) (now : Int) (r : CallHistoryRow) :
    engineEndedRowUpdate ev now (engineEndedRowUpdate ev now r) =
      engineEndedRowUpdate ev now r := by
  unfold engineEndedRowUpdate
  cases hER : ev.endReason <;> cases hSS : ev.shortSummary <;> cases hS : ev.summary <;>
    cases hBS : ev.billingStatus <;> cases hRU : ev.recordingUrl <;> cases hRec : ev.recording <;>
      cases hBD : engineBilledDuration ev (engineDurationSeconds ev r.startedAt) <;>
        simp_all

end Talkrix

namespace Talkrix

theorem applyContactUpdate_idem (st : CallStatus) (now : Int) (callId : Option String)
    (dur : Option Int) (notes : Option String) (ct : Contact) :
    applyContactUpdate st now callId dur notes
        (applyContactUpdate st now callId dur notes ct) =
      applyContactUpdate st now callId dur notes ct := by
  unfold applyContactUpdate
  cases callId <;> cases dur <;> cases notes <;> simp_all

theorem setStatsFrom_self_idem (c : Campaign) :
    setStatsFrom (setStatsFrom c c) (setStatsFrom c c) = setStatsFrom c c := by
  unfold setStatsFrom calculateCampaignStats
  rfl

theorem trackerDelete_idem (k : TrackKey) (l : List ActiveCallInfo)
    (h : (l.map (fun e => e.key)).Nodup) :
    trackerDelete k (trackerDelete k l) = trackerDelete k l := by
  induction l with
  | nil => rfl
  | cons e es ih =>
      rw [List.map_cons, List.nodup_cons] at h
      by_cases hk : e.key = k
      · have h1 : trackerDelete k (e :: es) = es := by simp [trackerDelete, hk]
        rw [h1]
        apply trackerDelete_of_forall_ne
        intro x hx hxk
        exact h.1 (List.mem_map.mpr ⟨x, hx, hxk.trans hk.symm⟩)
      · have h2 : trackerDelete k (e :: es) = e :: trackerDelete k es := by
          simp [trackerDelete, hk]
        have h3 : trackerDelete k (e :: trackerDelete k es) =
            e :: trackerDelete k (trackerDelete k es) := by
          simp [trackerDelete, hk]
        rw [h2, h3, ih h.2]

end Talkrix

namespace Talkrix

theorem onCallEnded_wake (env : Env) (out : Nat → Nat → InitOutcome)
    (key : TrackKey) (now : Int) (s : SysState)
    (m1 m2 : List Campaign) (camp : Campaign)
    (hdec : s.campaigns = m1 ++ camp :: m2)
    (hm1 : ∀ x ∈ m1, x.id ≠ camp.id)
    (hnd : (camp.contacts.countP (fun c => c.callStatus = CallStatus.pending) = 0 &&
        camp.contacts.countP (fun c => c.callStatus = CallStatus.inProgress) = 0 : Bool)
      = false)
    (hstate : (s.userStates.find? (fun st => st.userId = camp.userId)).isSome = true) :
    onCallEnded env out camp.id key now s =
      { s with tracker := trackerDelete key s.tracker,
               userStates := statesModify camp.userId
                 (fun st => { st with activeCalls := st.activeCalls - 1 }) s.userStates } := by
  have hm1' : ∀ x ∈ m1, decide (x.id = camp.id) = false := fun x hx => by
    simp [hm1 x hx]
  have hfind : s.campaigns.find? (fun c => c.id = camp.id) = some camp := by
    rw [hdec]
    exact find?_append_first _ m1 camp m2 hm1' (by simp)
  unfold onCallEnded
  simp only [hfind, hstate, hnd]
  simp [hstate]

theorem onCallEnded_complete (env : Env) (out : Nat → Nat → InitOutcome)
    (key : TrackKey) (now : Int) (s : SysState)
    (m1 m2 : List Campaign) (camp : Campaign)
    (hdec : s.campaigns = m1 ++ camp :: m2)
    (hm1 : ∀ x ∈ m1, x.id ≠ camp.id)
    (hdone : (camp.contacts.countP (fun c => c.callStatus = CallStatus.pending) = 0 &&
        camp.contacts.countP (fun c => c.callStatus = CallStatus.inProgress) = 0 : Bool)
      = true)
    (hstate : (s.userStates.find? (fun st => st.userId = camp.userId)).isSome = true) :
    onCallEnded env out camp.id key now s =
      { campaigns := m1 ++ finishedCampaign now camp :: m2,
        histories := s.histories,
        userStates := statesModify camp.userId
          (fun st => { st with activeCampaigns := st.activeCampaigns.erase camp.id })
          (statesModify camp.userId
            (fun st => { st with activeCalls := st.activeCalls - 1 }) s.userStates),
        tracker := trackerDelete key s.tracker } := by
  have hm1' : ∀ x ∈ m1, decide (x.id = camp.id) = false := fun x hx => by
    simp [hm1 x hx]
  have hfind : s.campaigns.find? (fun c => c.id = camp.id) = some camp := by
    rw [hdec]
    exact find?_append_first _ m1 camp m2 hm1' (by simp)
  unfold onCallEnded
  simp only [hfind, hstate, hdone]
  simp only [eq_self_iff_true, if_true]
  unfold completeCampaign
  simp only [hfind]
  rw [hdec, updateFirstWhere_append _ _ m1 camp m2 hm1' (by simp)]
  rfl

end Talkrix

namespace Talkrix

theorem handleCallEnded_closed_form
    (env : Env) (out : Nat → Nat → InitOutcome) (ev : EngineEndedEvent) (now : Int)
    (s : SysState)
    (h1 h2 : List CallHistoryRow) (row : CallHistoryRow)
    (m1 m2 : List Campaign) (camp : Campaign) (l1 l2 : List Contact) (ct : Contact)
    (hhdec : s.histories = h1 ++ row :: h2)
    (hh1 : ∀ r ∈ h1, r.talkrixCallId ≠ ev.callId)
    (hrow : row.talkrixCallId = ev.callId)
    (hmeta : row.metaCampaignId = some camp.id)
    (hdec : s.campaigns = m1 ++ camp :: m2)
    (hm1 : ∀ x ∈ m1, x.id ≠ camp.id)
    (hcts : camp.contacts = l1 ++ ct :: l2)
    (hl1 : ∀ x ∈ l1, x.callId ≠ some ev.callId)
    (hct : ct.callId = some ev.callId)
    (hnd : ((l1 ++ endedContact ev now row.startedAt ct :: l2).countP
          (fun c => c.callStatus = CallStatus.pending) = 0 &&
        (l1 ++ endedContact ev now row.startedAt ct :: l2).countP
          (fun c => c.callStatus = CallStatus.inProgress) = 0 : Bool) = false)
    (hstate : (s.userStates.find? (fun st => st.userId = camp.userId)).isSome = true) :
    handleCallEnded env out ev now s =
      { campaigns := m1 ++ endedCampaign ev now row.startedAt camp l1 l2 ct :: m2,
        histories := h1 ++ engineEndedRowUpdate ev now row :: h2,
        userStates := statesModify camp.userId
          (fun st => { st with activeCalls := st.activeCalls - 1 }) s.userStates,
        tracker := trackerDelete (TrackKey.engine ev.callId) s.tracker } := by
  have hh1' : ∀ r ∈ h1, decide (r.talkrixCallId = ev.callId) = false := fun r hr => by
    simp [hh1 r hr]
  have hfindrow : s.histories.find? (fun r => r.talkrixCallId = ev.callId) = some row := by
    rw [hhdec]
    exact find?_append_first _ h1 row h2 hh1' (by simp [hrow])
  have hhist : updateFirstWhere (fun r => r.talkrixCallId = ev.callId)
      (engineEndedRowUpdate ev now) s.histories =
      h1 ++ engineEndedRowUpdate ev now row :: h2 := by
    rw [hhdec]
    exact updateFirstWhere_append _ _ h1 row h2 hh1' (by simp [hrow])
  have hupd := updateContactCallStatusByCallId_closed_form camp.id ev.callId
    (mapEndReasonToStatus ev.endReason) now
    (some (engineDurationSeconds ev row.startedAt)) m1 m2 camp l1 l2 ct
    hm1 rfl hcts hl1 hct
  have hwake := onCallEnded_wake env out (TrackKey.engine ev.callId) now
    { s with
        histories := h1 ++ engineEndedRowUpdate ev now row :: h2,
        campaigns := m1 ++ endedCampaign ev now row.startedAt camp l1 l2 ct :: m2 }
    m1 m2 (endedCampaign ev now row.startedAt camp l1 l2 ct)
    rfl (fun x hx => hm1 x hx) hnd hstate
  unfold handleCallEnded
  simp only [hfindrow, hmeta]
  unfold updateCampaignContactStatus
  simp only [hhist, hdec, hupd]
  exact hwake

theorem handleCallEnded_closed_form_complete
    (env : Env) (out : Nat → Nat → InitOutcome) (ev : EngineEndedEvent) (now : Int)
    (s : SysState)
    (h1 h2 : List CallHistoryRow) (row : CallHistoryRow)
    (m1 m2 : List Campaign) (camp : Campaign) (l1 l2 : List Contact) (ct : Contact)
    (hhdec : s.histories = h1 ++ row :: h2)
    (hh1 : ∀ r ∈ h1, r.talkrixCallId ≠ ev.callId)
    (hrow : row.talkrixCallId = ev.callId)
    (hmeta : row.metaCampaignId = some camp.id)
    (hdec : s.campaigns = m1 ++ camp :: m2)
    (hm1 : ∀ x ∈ m1, x.id ≠ camp.id)
    (hcts : camp.contacts = l1 ++ ct :: l2)
    (hl1 : ∀ x ∈ l1, x.callId ≠ some ev.callId)
    (hct : ct.callId = some ev.callId)
    (hdone : ((l1 ++ endedContact ev now row.startedAt ct :: l2).countP
          (fun c => c.callStatus = CallStatus.pending) = 0 &&
        (l1 ++ endedContact ev now row.startedAt ct :: l2).countP
          (fun c => c.callStatus = CallStatus.inProgress) = 0 : Bool) = true)
    (hstate : (s.userStates.find? (fun st => st.userId = camp.userId)).isSome = true) :
    handleCallEnded env out ev now s =
      { campaigns := m1 ++
          finishedCampaign now (endedCampaign ev now row.startedAt camp l1 l2 ct) :: m2,
        histories := h1 ++ engineEndedRowUpdate ev now row :: h2,
        userStates := statesModify camp.userId
          (fun st => { st with activeCampaigns := (st.activeCampaigns.erase camp.id) })
          (statesModify camp.userId
            (fun st => { st with activeCalls := st.activeCalls - 1 }) s.userStates),
        tracker := trackerDelete (TrackKey.engine ev.callId) s.tracker } := by
  have hh1' : ∀ r ∈ h1, decide (r.talkrixCallId = ev.callId) = false := fun r hr => by
    simp [hh1 r hr]
  have hfindrow : s.histories.find? (fun r => r.talkrixCallId = ev.callId) = some row := by
    rw [hhdec]
    exact find?_append_first _ h1 row h2 hh1' (by simp [hrow])
  have hhist : updateFirstWhere (fun r => r.talkrixCallId = ev.callId)
      (engineEndedRowUpdate ev now) s.histories =
      h1 ++ engineEndedRowUpdate ev now row :: h2 := by
    rw [hhdec]
    exact updateFirstWhere_append _ _ h1 row h2 hh1' (by simp [hrow])
  have hupd := updateContactCallStatusByCallId_closed_form camp.id ev.callId
    (mapEndReasonToStatus ev.endReason) now
    (some (engineDurationSeconds ev row.startedAt)) m1 m2 camp l1 l2 ct
    hm1 rfl hcts hl1 hct
  have hcomp := onCallEnded_complete env out (TrackKey.engine ev.callId) now
    { s with
        histories := h1 ++ engineEndedRowUpdate ev now row :: h2,
        campaigns := m1 ++ endedCampaign ev now row.startedAt camp l1 l2 ct :: m2 }
    m1 m2 (endedCampaign ev now row.startedAt camp l1 l2 ct)
    rfl (fun x hx => hm1 x hx) hdone hstate
  unfold handleCallEnded
  simp only [hfindrow, hmeta]
  unfold updateCampaignContactStatus
  simp only [hhist, hdec, hupd]
  exact hcomp

theorem statesModify_find_isSome (u : Nat) (f : UserCallState → UserCallState)
    (hf : ∀ st, (f st).userId = st.userId) (l : List UserCallState)
    (h : (l.find? (fun st => st.userId = u)).isSome = true) :
    ((statesModify u f l).find? (fun st => st.userId = u)).isSome = true := by
  rw [statesModify, find?_updateFirstWhere_self _ _ _ (fun a => by simp [hf a])]
  cases hfo : l.find? (fun st => st.userId = u) with
  | none => rw [hfo] at h; exact absurd h (by simp)
  | some st0 => simp

theorem endedContact_idem (ev : EngineEndedEvent) (now : Int) (sa : Option Int)
    (ct : Contact) :
    endedContact ev now sa (endedContact ev now sa ct) = endedContact ev now sa ct :=
  applyContactUpdate_idem (mapEndReasonToStatus ev.endReason) now none
    (some (engineDurationSeconds ev sa)) none ct

theorem endedCampaign_idem (ev : EngineEndedEvent) (now : Int) (sa : Option Int)
    (camp : Campaign) (l1 l2 : List Contact) (ct : Contact) :
    endedCampaign ev now sa (endedCampaign ev now sa camp l1 l2 ct) l1 l2
      (endedContact ev now sa ct) = endedCampaign ev now sa camp l1 l2 ct := by
  unfold endedCampaign
  rw [endedContact_idem]
  exact setStatsFrom_self_idem
    { camp with contacts := (l1 ++ endedContact ev now sa ct :: l2) }

theorem finishedCampaign_ended_idem (ev : EngineEndedEvent) (now : Int)
    (sa : Option Int) (camp : Campaign) (l1 l2 : List Contact) (ct : Contact) :
    finishedCampaign now (endedCampaign ev now sa
        (finishedCampaign now (endedCampaign ev now sa camp l1 l2 ct)) l1 l2
        (endedContact ev now sa ct)) =
      finishedCampaign now (endedCampaign ev now sa camp l1 l2 ct) := by
  unfold endedCampaign
  rw [endedContact_idem]
  rfl

end Talkrix

namespace Talkrix

/-- C2 (amended): re-delivering the same terminal engine `call.ended`
event to a user that still has an in-memory call state leaves the durable
`CampaignStore` and `CallHistoryStore` — and, when tracker keys are
unique, the `activeCallsTracker` — exactly as after the first delivery,
both when the campaign still has work left (wake branch) and when the
event finished the campaign's last open contact (the `completeCampaign`
branch).  The in-memory `activeCalls` counter is *not* protected:
`onCallEnded` decrements it once per delivery, see the counterexample. -/
theorem C2_duplicate_engine_event_durable_idempotence
    (env : Env) (out : Nat → Nat → InitOutcome) (ev : EngineEndedEvent) (now : Int)
    (s : SysState)
    (h1 h2 : List CallHistoryRow) (row : CallHistoryRow)
    (m1 m2 : List Campaign) (camp : Campaign) (l1 l2 : List Contact) (ct : Contact)
    (hhdec : s.histories = h1 ++ row :: h2)
    (hh1 : ∀ r ∈ h1, r.talkrixCallId ≠ ev.callId)
    (hrow : row.talkrixCallId = ev.callId)
    (hmeta : row.metaCampaignId = some camp.id)
    (hdec : s.campaigns = m1 ++ camp :: m2)
    (hm1 : ∀ x ∈ m1, x.id ≠ camp.id)
    (hcts : camp.contacts = l1 ++ ct :: l2)
    (hl1 : ∀ x ∈ l1, x.callId ≠ some ev.callId)
    (hct : ct.callId = some ev.callId)
    (hstate : (s.userStates.find? (fun st => st.userId = camp.userId)).isSome = true)
    (htr : (s.tracker.map (fun e => e.key)).Nodup) :
    (handleCallEnded env out ev now (handleCallEnded env out ev now s)).campaigns =
      (handleCallEnded env out ev now s).campaigns ∧
    (handleCallEnded env out ev now (handleCallEnded env out ev now s)).histories =
      (handleCallEnded env out ev now s).histories ∧
    (handleCallEnded env out ev now (handleCallEnded env out ev now s)).tracker =
      (handleCallEnded env out ev now s).tracker := by
  have hstate2 : (((statesModify camp.userId
      (fun st => { st with activeCalls := st.activeCalls - 1 }) s.userStates).find?
        (fun st => st.userId = camp.userId)).isSome = true) :=
    statesModify_find_isSome camp.userId
      (fun st => { st with activeCalls := st.activeCalls - 1 })
      (fun st => rfl) s.userStates hstate
  have hsa : (engineEndedRowUpdate ev now row).startedAt = row.startedAt := rfl
  by_cases hnd : ((l1 ++ endedContact ev now row.startedAt ct :: l2).countP
        (fun c => c.callStatus = CallStatus.pending) = 0 &&
      (l1 ++ endedContact ev now row.startedAt ct :: l2).countP
        (fun c => c.callStatus = CallStatus.inProgress) = 0 : Bool) = true
  · have H1 := handleCallEnded_closed_form_complete env out ev now s h1 h2 row
      m1 m2 camp l1 l2 ct hhdec hh1 hrow hmeta hdec hm1 hcts hl1 hct hnd hstate
    have hstate3 : (((statesModify camp.userId
        (fun st => { st with activeCampaigns := (st.activeCampaigns.erase camp.id) })
        (statesModify camp.userId
          (fun st => { st with activeCalls := st.activeCalls - 1 }) s.userStates)).find?
          (fun st => st.userId = camp.userId)).isSome = true) :=
      statesModify_find_isSome camp.userId
        (fun st => { st with activeCampaigns := (st.activeCampaigns.erase camp.id) })
        (fun st => rfl)
        (statesModify camp.userId
          (fun st => { st with activeCalls := st.activeCalls - 1 }) s.userStates)
        hstate2
    have hdone2 : ((l1 ++ endedContact ev now
          (engineEndedRowUpdate ev now row).startedAt
          (endedContact ev now row.startedAt ct) :: l2).countP
          (fun c => c.callStatus = CallStatus.pending) = 0 &&
        (l1 ++ endedContact ev now (engineEndedRowUpdate ev now row).startedAt
          (endedContact ev now row.startedAt ct) :: l2).countP
          (fun c => c.callStatus = CallStatus.inProgress) = 0 : Bool) = true := by
      rw [hsa, endedContact_idem]
      exact hnd
    have H2 := handleCallEnded_closed_form_complete env out ev now
      (handleCallEnded env out ev now s)
      h1 h2 (engineEndedRowUpdate ev now row) m1 m2
      (finishedCampaign now (endedCampaign ev now row.startedAt camp l1 l2 ct))
      l1 l2 (endedContact ev now row.startedAt ct)
      (by rw [H1]) hh1 hrow hmeta (by rw [H1]) (fun x hx => hm1 x hx) rfl hl1 hct
      hdone2 (by rw [H1]; exact hstate3)
    refine ⟨?_, ?_, ?_⟩
    · rw [H2, H1]
      dsimp only
      rw [hsa]
      exact congrArg (fun x => m1 ++ x :: m2)
        (finishedCampaign_ended_idem ev now row.startedAt camp l1 l2 ct)
    · rw [H2, H1]
      dsimp only
      rw [engineEndedRowUpdate_idem]
    · rw [H2, H1]
      dsimp only
      exact trackerDelete_idem _ _ htr
  · have hndF : ((l1 ++ endedContact ev now row.startedAt ct :: l2).countP
          (fun c => c.callStatus = CallStatus.pending) = 0 &&
        (l1 ++ endedContact ev now row.startedAt ct :: l2).countP
          (fun c => c.callStatus = CallStatus.inProgress) = 0 : Bool) = false := by
      simpa using hnd
    have H1 := handleCallEnded_closed_form env out ev now s h1 h2 row m1 m2 camp
      l1 l2 ct hhdec hh1 hrow hmeta hdec hm1 hcts hl1 hct hndF hstate
    have hndF2 : ((l1 ++ endedContact ev now
          (engineEndedRowUpdate ev now row).startedAt
          (endedContact ev now row.startedAt ct) :: l2).countP
          (fun c => c.callStatus = CallStatus.pending) = 0 &&
        (l1 ++ endedContact ev now (engineEndedRowUpdate ev now row).startedAt
          (endedContact ev now row.startedAt ct) :: l2).countP
          (fun c => c.callStatus = CallStatus.inProgress) = 0 : Bool) = false := by
      rw [hsa, endedContact_idem]
      exact hndF
    have H2 := handleCallEnded_closed_form env out ev now
      (handleCallEnded env out ev now s)
      h1 h2 (engineEndedRowUpdate ev now row) m1 m2
      (endedCampaign ev now row.startedAt camp l1 l2 ct)
      l1 l2 (endedContact ev now row.startedAt ct)
      (by rw [H1]) hh1 hrow hmeta (by rw [H1]) (fun x hx => hm1 x hx) rfl hl1 hct
      hndF2 (by rw [H1]; exact hstate2)
    refine ⟨?_, ?_, ?_⟩
    · rw [H2, H1]
      dsimp only
      rw [hsa]
      exact congrArg (fun x => m1 ++ x :: m2)
        (endedCampaign_idem ev now row.startedAt camp l1 l2 ct)
    · rw [H2, H1]
      dsimp only
      rw [engineEndedRowUpdate_idem]
    · rw [H2, H1]
      dsimp only
      exact trackerDelete_idem _ _ htr

end Talkrix

namespace Talkrix


/-- C2 counterexample: the webhook reduction is *not* a no-op on the user
budget when re-delivered — `onCallEnded` decrements `activeCalls`
unconditionally, so the duplicate delivery of the same terminal event
drops the counter from 2 to 0 instead of leaving it at 1. -/
theorem C2_counterexample :
    (handleCallEnded env7 outNever evC2 160 stC2).userStates =
      [⟨7, 1, 2, false, [1]⟩] ∧
    (handleCallEnded env7 outNever evC2 160
        (handleCallEnded env7 outNever evC2 160 stC2)).userStates =
      [⟨7, 0, 2, false, [1]⟩] ∧
    (handleCallEnded env7 outNever evC2 160
        (handleCallEnded env7 outNever evC2 160 stC2)).userStates ≠
      (handleCallEnded env7 outNever evC2 160 stC2).userStates := by
  refine ⟨by decide, by decide, by decide⟩

theorem C2_duplicate_engine_event_durable_idempotence_witness :
    ((handleCallEnded env7 outNever evC2 160
        (handleCallEnded env7 outNever evC2 160 stC2)).campaigns =
      (handleCallEnded env7 outNever evC2 160 stC2).campaigns ∧
    (handleCallEnded env7 outNever evC2 160
        (handleCallEnded env7 outNever evC2 160 stC2)).histories =
      (handleCallEnded env7 outNever evC2 160 stC2).histories ∧
    (handleCallEnded env7 outNever evC2 160
        (handleCallEnded env7 outNever evC2 160 stC2)).tracker =
      (handleCallEnded env7 outNever evC2 160 stC2).tracker) ∧
    ((handleCallEnded env7 outNever evC2 160
        (handleCallEnded env7 outNever evC2 160 stC2last)).campaigns =
      (handleCallEnded env7 outNever evC2 160 stC2last).campaigns ∧
    (handleCallEnded env7 outNever evC2 160
        (handleCallEnded env7 outNever evC2 160 stC2last)).histories =
      (handleCallEnded env7 outNever evC2 160 stC2last).histories ∧
    (handleCallEnded env7 outNever evC2 160
        (handleCallEnded env7 outNever evC2 160 stC2last)).tracker =
      (handleCallEnded env7 outNever evC2 160 stC2last).tracker) :=
  ⟨C2_duplicate_engine_event_durable_idempotence env7 outNever evC2 160 stC2
    [] [] rowC2 [] [] campC2 [ctPend] [] ctC2
    rfl (by simp) rfl rfl rfl (by simp) rfl (by decide) rfl rfl (by decide),
   C2_duplicate_engine_event_durable_idempotence env7 outNever evC2 160 stC2last
    [] [] rowC2 [] [] campC2last [ctDone] [] ctC2
    rfl (by simp) rfl rfl rfl (by simp) rfl (by decide) rfl rfl (by decide)⟩

end Talkrix

namespace Talkrix

theorem trackerSet_length_le (v : ActiveCallInfo) (l : List ActiveCallInfo) :
    (trackerSet v l).length ≤ l.length + 1 := by
  induction l with
  | nil => simp [trackerSet]
  | cons e es ih =>
      by_cases hk : e.key = v.key
      · simp [trackerSet, hk]
      · simp only [trackerSet, if_neg hk, List.length_cons]
        omega

theorem trackerDelete_length_le (k : TrackKey) (l : List ActiveCallInfo) :
    (trackerDelete k l).length ≤ l.length := by
  induction l with
  | nil => simp [trackerDelete]
  | cons e es ih =>
      by_cases hk : e.key = k
      · simp only [trackerDelete, if_pos hk, List.length_cons]
        omega
      · simp only [trackerDelete, if_neg hk, List.length_cons]
        omega

theorem initiateClaimedCall_tracker_le (env : Env) (o : InitOutcome) (now : Int)
    (camp : Campaign) (ct : Contact) (ctId : Nat) (s : SysState) :
    (initiateClaimedCall env o now camp ct ctId s).tracker.length ≤
      s.tracker.length + 1 := by
  unfold initiateClaimedCall
  by_cases h1 : (camp.outboundProvider = none || camp.outboundPhoneNumber = none : Bool) = true
  · rw [if_pos h1]
    simp
  · rw [if_neg h1]
    by_cases h2 : ¬ env.userTelephony camp.userId = true
    · rw [if_pos h2]
      simp
    · rw [if_neg h2]
      by_cases h3 : ¬ env.agents.contains camp.agentId = true
      · rw [if_pos h3]
        simp
      · rw [if_neg h3]
        cases o with
        | createFail msg =>
            dsimp only
            rw [trackerDelete_trackerSet_eq (TrackKey.pending camp.id ctId)
              ⟨TrackKey.pending camp.id ctId, ctId, camp.id, camp.userId, now⟩ s.tracker rfl]
            have := trackerDelete_length_le (TrackKey.pending camp.id ctId) s.tracker
            omega
        | createOkThenThrow eid err =>
            dsimp only
            rw [trackerDelete_trackerSet_eq (TrackKey.pending camp.id ctId)
              ⟨TrackKey.pending camp.id ctId, ctId, camp.id, camp.userId, now⟩ s.tracker rfl]
            have ha := trackerDelete_length_le (TrackKey.pending camp.id ctId) s.tracker
            have hb := trackerSet_length_le
              ⟨TrackKey.engine eid, ctId, camp.id, camp.userId, now⟩
              (trackerDelete (TrackKey.pending camp.id ctId) s.tracker)
            have hc := trackerDelete_length_le (TrackKey.pending camp.id ctId)
              (trackerSet ⟨TrackKey.engine eid, ctId, camp.id, camp.userId, now⟩
                (trackerDelete (TrackKey.pending camp.id ctId) s.tracker))
            omega
        | createOkComplete eid j =>
            dsimp only
            rw [trackerDelete_trackerSet_eq (TrackKey.pending camp.id ctId)
              ⟨TrackKey.pending camp.id ctId, ctId, camp.id, camp.userId, now⟩ s.tracker rfl]
            have ha := trackerDelete_length_le (TrackKey.pending camp.id ctId) s.tracker
            have hb := trackerSet_length_le
              ⟨TrackKey.engine eid, ctId, camp.id, camp.userId, now⟩
              (trackerDelete (TrackKey.pending camp.id ctId) s.tracker)
            omega

end Talkrix

namespace Talkrix

theorem completeCampaign_tracker (cId u : Nat) (now : Int) (s : SysState) :
    (completeCampaign cId u now s).tracker = s.tracker := by
  unfold completeCampaign
  cases s.campaigns.find? (fun c => c.id = cId) <;> rfl

theorem checkAndCompleteCampaigns_tracker (ids : List (Nat × Nat)) (now : Int) :
    ∀ s : SysState, (checkAndCompleteCampaigns ids now s).tracker = s.tracker := by
  induction ids with
  | nil => intro s; rfl
  | cons p ps ih =>
      intro s
      have h1 : checkAndCompleteCampaigns (p :: ps) now s =
          checkAndCompleteCampaigns ps now
            (match s.campaigns.find? (fun c => c.id = p.1) with
             | none => s
             | some fresh =>
                 if fresh.contacts.countP (fun c => c.callStatus = CallStatus.pending) = 0 &&
                    fresh.contacts.countP (fun c => c.callStatus = CallStatus.inProgress) = 0 then
                   completeCampaign p.1 p.2 now s
                 else s) := rfl
      rw [h1, ih]
      cases hf : s.campaigns.find? (fun c => c.id = p.1) with
      | none => rfl
      | some fresh =>
          dsimp only
          by_cases hdone : (fresh.contacts.countP (fun c => c.callStatus = CallStatus.pending) = 0 &&
              fresh.contacts.countP (fun c => c.callStatus = CallStatus.inProgress) = 0 : Bool) = true
          · rw [if_pos hdone, completeCampaign_tracker]
          · rw [if_neg hdone]

theorem processLoop_tracker_le (env : Env) (out : Nat → Nat → InitOutcome) (now : Int)
    (campIds : List Nat) (slots : Nat) :
    ∀ (fuel claims idx : Nat) (s : SysState), claims ≤ slots →
      (processLoop env out now campIds slots fuel claims idx s).1.tracker.length ≤
        s.tracker.length + (slots - claims) := by
  intro fuel
  induction fuel with
  | zero =>
      intro claims idx s h
      simp [processLoop]
  | succ n ih =>
      intro claims idx s h
      unfold processLoop
      by_cases hc : claims < slots
      · rw [if_pos hc]
        split
        · dsimp only
          split
          · next camp ct ctId cs' heq =>
            have hstep := initiateClaimedCall_tracker_le env
              (out (campIds.getD (idx % campIds.length) 0) ctId) now camp ct ctId
              { s with campaigns := cs' }
            have hrec := ih (claims + 1) (idx + 1)
              (initiateClaimedCall env
                (out (campIds.getD (idx % campIds.length) 0) ctId) now camp ct ctId
                { s with campaigns := cs' }) hc
            dsimp only at hstep hrec ⊢
            omega
          · next snd heq =>
              dsimp only
              omega
        · dsimp only
          split
          · next camp ct ctId cs' heq =>
            have hstep := initiateClaimedCall_tracker_le env
              (out (campIds.getD (idx % campIds.length) 0) ctId) now camp ct ctId
              { s with campaigns := cs' }
            have hrec := ih (claims + 1) (idx + 1)
              (initiateClaimedCall env
                (out (campIds.getD (idx % campIds.length) 0) ctId) now camp ct ctId
                { s with campaigns := cs' }) hc
            dsimp only at hstep hrec ⊢
            omega
          · next snd heq =>
              exact ih claims (idx + 1) s h
      · rw [if_neg hc]
        simp

end Talkrix

namespace Talkrix

theorem refreshMax_activeCalls (env : Env) (u : Nat) (st : UserCallState) :
    (refreshMax env u st).activeCalls = st.activeCalls := by
  unfold refreshMax
  cases env.userMax u with
  | none => rfl
  | some m =>
      dsimp only
      by_cases hm : m ≠ 0
      · rw [if_pos hm]
      · rw [if_neg hm]

/-- C3 (amended): a `processUserCalls` invocation grows the
`activeCallsTracker` by at most `availableSlots` — the user's
`maxConcurrentCalls - activeCalls` budget, zero when the user has no state
or the processing latch is held — one entry at most per claimed contact. -/
theorem C3_processUserCalls_tracker_bound (env : Env) (out : Nat → Nat → InitOutcome)
    (now : Int) (u : Nat) (s : SysState) :
    (processUserCalls env out now u s).tracker.length ≤
      s.tracker.length + availableSlots env u s := by
  unfold processUserCalls availableSlots
  cases hf : s.userStates.find? (fun st => st.userId = u) with
  | none => simp
  | some st0 =>
      dsimp only
      have hra := refreshMax_activeCalls env u st0
      by_cases hp : st0.isProcessing = true
      · rw [if_pos hp, if_pos hp]
        simp
      · rw [if_neg hp, if_neg hp]
        by_cases hs : ((refreshMax env u st0).maxConcurrentCalls : Int) -
            ((refreshMax env u st0).activeCalls : Int) ≤ 0
        · rw [if_pos hs]
          dsimp only
          omega
        · rw [if_neg hs]
          by_cases hemp : (({ s with userStates := (statesModify u
              (fun st => { refreshMax env u st with isProcessing := true })
              s.userStates) } : SysState).campaigns.filter
                (userActiveOutbound u)).isEmpty = true
          · rw [if_pos hemp]
            dsimp only
            omega
          · rw [if_neg hemp]
            have hloop := processLoop_tracker_le env out now
              (List.map (fun c => c.id) (List.filter (userActiveOutbound u) s.campaigns))
              ((((refreshMax env u st0).maxConcurrentCalls : Int) -
                ((refreshMax env u st0).activeCalls : Int)).toNat)
              ((((refreshMax env u st0).maxConcurrentCalls : Int) -
                ((refreshMax env u st0).activeCalls : Int)).toNat *
                (List.map (fun c => c.id)
                  (List.filter (userActiveOutbound u) s.campaigns)).length)
              0 0
              { s with userStates := (statesModify u
                  (fun st => { refreshMax env u st with isProcessing := true })
                  s.userStates) }
              (Nat.zero_le _)
            dsimp only at hloop
            split
            · next hcl =>
                dsimp only
                rw [checkAndCompleteCampaigns_tracker]
                omega
            · next hcl =>
                dsimp only
                omega

end Talkrix

namespace Talkrix


/-- C3 counterexample: after a routine dial → Twilio-callback → dial
sequence, user 7 holds two `ActiveCallRecord`s against
`maxConcurrentCalls = 1` — the Twilio webhook hands `onCallEnded` the
provider `CallSid` (`CA1`) while the tracker is keyed by the engine call
id (`E1`), so the slot is released without the record being removed. -/
theorem C3_counterexample :
    envC3.userMax 7 = some 1 ∧
    traceC3.tracker.countP (fun e => e.userId = 7) = 2 ∧
    ¬ traceC3.tracker.countP (fun e => e.userId = 7) ≤ 1 := by
  refine ⟨rfl, by decide, by decide⟩

end Talkrix

namespace Talkrix



theorem contactsPOF_refl (l : List Contact) : ContactsPendingOnlyFrom l l :=
  fun ct' h hp => ⟨ct', h, rfl, hp⟩

theorem pof_refl (l : List Campaign) : PendingOnlyFrom l l :=
  fun c' hc ct' hct hp => ⟨c', hc, rfl, ct', hct, rfl, hp⟩

theorem pof_trans {a b c : List Campaign} (h1 : PendingOnlyFrom a b)
    (h2 : PendingOnlyFrom b c) : PendingOnlyFrom a c := by
  intro c' hc' ct' hct' hp
  obtain ⟨cb, hcb, hidb, ctb, hctb, hcidb, hpb⟩ := h2 c' hc' ct' hct' hp
  obtain ⟨ca, hca, hida, cta, hcta, hcida, hpa⟩ := h1 cb hcb ctb hctb hpb
  exact ⟨ca, hca, hida.trans hidb, cta, hcta, hcida.trans hcidb, hpa⟩

theorem contactsPOF_updateFirstWhere (q : Contact → Bool) (g : Contact → Contact)
    (hst : ∀ ct, (g ct).callStatus ≠ CallStatus.pending) (l : List Contact) :
    ContactsPendingOnlyFrom l (updateFirstWhere q g l) := by
  intro ct' hct' hp
  rcases mem_updateFirstWhere _ _ _ _ hct' with h | ⟨y, hy, rfl⟩
  · exact ⟨ct', h, rfl, hp⟩
  · exact absurd hp (hst y)

theorem pof_updateFirstWhere (p : Campaign → Bool) (f : Campaign → Campaign)
    (hid : ∀ c, (f c).id = c.id)
    (hcts : ∀ c, ContactsPendingOnlyFrom c.contacts (f c).contacts)
    (l : List Campaign) : PendingOnlyFrom l (updateFirstWhere p f l) := by
  intro c' hc' ct' hct' hp
  rcases mem_updateFirstWhere _ _ _ _ hc' with h | ⟨y, hy, rfl⟩
  · exact ⟨c', h, rfl, ct', hct', rfl, hp⟩
  · obtain ⟨ct, hct, hcid2, hp2⟩ := hcts y ct' hct' hp
    exact ⟨y, hy, (hid y).symm, ct, hct, hcid2, hp2⟩

theorem pof_updateContactCallStatus (cId ctId : Nat) (st : CallStatus) (now : Int)
    (callId : Option String) (dur : Option Int) (notes : Option String)
    (hst : st ≠ CallStatus.pending) (l : List Campaign) :
    PendingOnlyFrom l (updateContactCallStatus cId ctId st now callId dur notes l).1 := by
  unfold updateContactCallStatus
  cases hfind : l.find? (campaignMatches cId ctId) with
  | none => exact pof_refl l
  | some camp =>
      dsimp only
      have hlayer1 : PendingOnlyFrom l (updateFirstWhere (campaignMatches cId ctId)
          (fun c => { c with contacts := (updateFirstWhere (fun ct => ct.cid = ctId)
            (applyContactUpdate st now callId dur notes) c.contacts) }) l) := by
        apply pof_updateFirstWhere
        · intro c
          rfl
        · intro c
          apply contactsPOF_updateFirstWhere
          intro ct
          exact hst
      apply pof_trans hlayer1
      apply pof_updateFirstWhere
      · intro c
        rfl
      · intro c
        exact contactsPOF_refl _

theorem pof_updateByCallId (cId : Nat) (callId : String) (st : CallStatus)
    (now : Int) (dur : Option Int) (hst : st ≠ CallStatus.pending)
    (l : List Campaign) :
    PendingOnlyFrom l (updateContactCallStatusByCallId cId callId st now dur l).1 := by
  unfold updateContactCallStatusByCallId
  dsimp only
  cases hfind : l.find? (fun c =>
      c.id = cId && c.contacts.any (fun ct => ct.callId = some callId)) with
  | none => exact pof_refl l
  | some camp =>
      dsimp only
      have hlayer1 : PendingOnlyFrom l (updateFirstWhere (fun c =>
          c.id = cId && c.contacts.any (fun ct => ct.callId = some callId))
          (fun c => { c with contacts := (updateFirstWhere
            (fun ct => ct.callId = some callId)
            (applyContactUpdate st now none dur none) c.contacts) }) l) := by
        apply pof_updateFirstWhere
        · intro c
          rfl
        · intro c
          apply contactsPOF_updateFirstWhere
          intro ct
          exact hst
      apply pof_trans hlayer1
      apply pof_updateFirstWhere
      · intro c
        rfl
      · intro c
        exact contactsPOF_refl _

theorem pof_updateStatusCampaign (cId : Nat) (st : CampaignStatus) (now : Int)
    (l : List Campaign) :
    PendingOnlyFrom l (updateStatusCampaign cId st now l) := by
  unfold updateStatusCampaign
  apply pof_updateFirstWhere
  · intro c
    by_cases h1 : (st = CampaignStatus.active || st = CampaignStatus.scheduled : Bool) = true
    · rw [if_pos h1]
    · rw [if_neg h1]
      by_cases h2 : st = CampaignStatus.completed
      · rw [if_pos h2]
      · rw [if_neg h2]
  · intro c
    by_cases h1 : (st = CampaignStatus.active || st = CampaignStatus.scheduled : Bool) = true
    · rw [if_pos h1]
      exact contactsPOF_refl _
    · rw [if_neg h1]
      by_cases h2 : st = CampaignStatus.completed
      · rw [if_pos h2]
        exact contactsPOF_refl _
      · rw [if_neg h2]
        exact contactsPOF_refl _

end Talkrix

namespace Talkrix

theorem pof_claimPendingContact (cId : Nat) (now : Int) (l : List Campaign) :
    PendingOnlyFrom l (claimPendingContact cId now l).2 := by
  unfold claimPendingContact
  cases hfind : l.find? (fun c => c.id = cId) with
  | none => exact pof_refl l
  | some camp =>
      dsimp only
      cases hct : camp.contacts.find? (fun ct => ct.callStatus = CallStatus.pending) with
      | none => exact pof_refl l
      | some ct =>
          dsimp only
          apply pof_updateFirstWhere
          · intro c
            rfl
          · intro c
            apply contactsPOF_updateFirstWhere
            intro x
            simp

theorem pof_completeCampaign (cId u : Nat) (now : Int) (s : SysState) :
    PendingOnlyFrom s.campaigns (completeCampaign cId u now s).campaigns := by
  unfold completeCampaign
  cases hfind : s.campaigns.find? (fun c => c.id = cId) with
  | none =>
      dsimp only
      exact pof_updateStatusCampaign cId CampaignStatus.completed now s.campaigns
  | some camp =>
      dsimp only
      apply pof_updateFirstWhere
      · intro c
        rfl
      · intro c
        exact contactsPOF_refl _

theorem pof_completeDueToEndTime (cId : Nat) (now : Int) (s : SysState) :
    PendingOnlyFrom s.campaigns (completeCampaignDueToEndTime cId now s).campaigns := by
  unfold completeCampaignDueToEndTime
  cases hfind : s.campaigns.find? (fun c => c.id = cId) with
  | none => exact pof_refl s.campaigns
  | some camp =>
      dsimp only
      by_cases hp : camp.contacts.countP (fun c => c.callStatus = CallStatus.pending) > 0
      · rw [if_pos hp]
        apply pof_updateFirstWhere
        · intro c
          rfl
        · intro c
          exact contactsPOF_refl _
      · rw [if_neg hp]
        exact pof_updateStatusCampaign cId CampaignStatus.completed now s.campaigns

theorem pof_checkAndCompleteCampaigns (ids : List (Nat × Nat)) (now : Int) :
    ∀ s : SysState, PendingOnlyFrom s.campaigns (checkAndCompleteCampaigns ids now s).campaigns := by
  induction ids with
  | nil => intro s; exact pof_refl _
  | cons p ps ih =>
      intro s
      have h1 : checkAndCompleteCampaigns (p :: ps) now s =
          checkAndCompleteCampaigns ps now
            (match s.campaigns.find? (fun c => c.id = p.1) with
             | none => s
             | some fresh =>
                 if fresh.contacts.countP (fun c => c.callStatus = CallStatus.pending) = 0 &&
                    fresh.contacts.countP (fun c => c.callStatus = CallStatus.inProgress) = 0 then
                   completeCampaign p.1 p.2 now s
                 else s) := rfl
      rw [h1]
      cases hf : s.campaigns.find? (fun c => c.id = p.1) with
      | none =>
          dsimp only
          exact ih s
      | some fresh =>
          dsimp only
          by_cases hdone : (fresh.contacts.countP (fun c => c.callStatus = CallStatus.pending) = 0 &&
              fresh.contacts.countP (fun c => c.callStatus = CallStatus.inProgress) = 0 : Bool) = true
          · rw [if_pos hdone]
            exact pof_trans (pof_completeCampaign p.1 p.2 now s)
              (ih (completeCampaign p.1 p.2 now s))
          · rw [if_neg hdone]
            exact ih s

end Talkrix

namespace Talkrix

theorem pof_foldl {β : Type} (f : SysState → β → SysState) (l : List β)
    (hstep : ∀ st b, PendingOnlyFrom st.campaigns (f st b).campaigns) :
    ∀ s : SysState, PendingOnlyFrom s.campaigns (l.foldl f s).campaigns := by
  induction l with
  | nil => intro s; exact pof_refl _
  | cons b bs ih =>
      intro s
      rw [List.foldl_cons]
      exact pof_trans (hstep s b) (ih (f s b))

theorem mapEndReasonToStatus_ne_pending (r : Option String) :
    mapEndReasonToStatus r ≠ CallStatus.pending := by
  unfold mapEndReasonToStatus
  split_ifs <;> simp

theorem twilioMap_fst_ne_pending (p : TwilioEndedPayload) :
    (twilioMap p).1 ≠ CallStatus.pending := by
  unfold twilioMap
  cases p.callStatus <;> simp

theorem initializeUserState_campaigns (env : Env) (u : Nat) (cs : List Campaign)
    (s : SysState) : (initializeUserState env u cs s).campaigns = s.campaigns := by
  unfold initializeUserState
  by_cases h : env.userExists u = true
  · rw [if_pos h]
  · rw [if_neg h]

theorem pof_initiateClaimedCall (env : Env) (o : InitOutcome) (now : Int)
    (camp : Campaign) (ct : Contact) (ctId : Nat) (s : SysState) :
    PendingOnlyFrom s.campaigns
      (initiateClaimedCall env o now camp ct ctId s).campaigns := by
  unfold initiateClaimedCall
  by_cases h1 : (camp.outboundProvider = none || camp.outboundPhoneNumber = none : Bool) = true
  · rw [if_pos h1]
    exact pof_updateContactCallStatus _ _ _ _ _ _ _ (by decide) _
  · rw [if_neg h1]
    by_cases h2 : ¬ env.userTelephony camp.userId = true
    · rw [if_pos h2]
      exact pof_updateContactCallStatus _ _ _ _ _ _ _ (by decide) _
    · rw [if_neg h2]
      by_cases h3 : ¬ env.agents.contains camp.agentId = true
      · rw [if_pos h3]
        exact pof_updateContactCallStatus _ _ _ _ _ _ _ (by decide) _
      · rw [if_neg h3]
        cases o with
        | createFail msg =>
            dsimp only
            exact pof_updateContactCallStatus _ _ _ _ _ _ _ (by decide) _
        | createOkThenThrow eid err =>
            dsimp only
            exact pof_updateContactCallStatus _ _ _ _ _ _ _ (by decide) _
        | createOkComplete eid j =>
            dsimp only
            exact pof_updateContactCallStatus _ _ _ _ _ _ _ (by decide) _

theorem pof_checkAndCleanupStaleCalls (now : Int) (s : SysState) :
    PendingOnlyFrom s.campaigns (checkAndCleanupStaleCalls now s).campaigns := by
  unfold checkAndCleanupStaleCalls
  apply pof_foldl
  intro st ci
  dsimp only
  exact pof_updateContactCallStatus _ _ _ _ _ _ _ (by decide) _

theorem pof_stopPhase (tenv : TimeEnv) (now : Int) (s : SysState) :
    PendingOnlyFrom s.campaigns (stopPhase tenv now s).campaigns := by
  unfold stopPhase
  apply pof_foldl
  intro st c
  exact pof_completeDueToEndTime c.id now st

end Talkrix

namespace Talkrix

theorem pof_processLoop (env : Env) (out : Nat → Nat → InitOutcome) (now : Int)
    (campIds : List Nat) (slots : Nat) :
    ∀ (fuel claims idx : Nat) (s : SysState),
      PendingOnlyFrom s.campaigns
        (processLoop env out now campIds slots fuel claims idx s).1.campaigns := by
  intro fuel
  induction fuel with
  | zero =>
      intro claims idx s
      exact pof_refl _
  | succ n ih =>
      intro claims idx s
      unfold processLoop
      by_cases hc : claims < slots
      · rw [if_pos hc]
        dsimp only
        split
        · next camp ct ctId cs' heq =>
            have hclaim : PendingOnlyFrom s.campaigns cs' := by
              have := pof_claimPendingContact (campIds.getD (idx % campIds.length) 0)
                now s.campaigns
              rw [heq] at this
              exact this
            refine pof_trans hclaim (pof_trans ?_ (ih (claims + 1) (idx + 1) _))
            exact pof_initiateClaimedCall env
              (out (campIds.getD (idx % campIds.length) 0) ctId) now camp ct ctId
              { s with campaigns := cs' }
        · next snd heq =>
            split
            · exact pof_refl _
            · exact ih claims (idx + 1) s
      · rw [if_neg hc]
        exact pof_refl _

theorem pof_processUserCalls (env : Env) (out : Nat → Nat → InitOutcome) (now : Int)
    (u : Nat) (s : SysState) :
    PendingOnlyFrom s.campaigns (processUserCalls env out now u s).campaigns := by
  unfold processUserCalls
  cases hf : s.userStates.find? (fun st => st.userId = u) with
  | none => exact pof_refl _
  | some st0 =>
      dsimp only
      by_cases hp : st0.isProcessing = true
      · rw [if_pos hp]
        exact pof_refl _
      · rw [if_neg hp]
        by_cases hs : ((refreshMax env u st0).maxConcurrentCalls : Int) -
            ((refreshMax env u st0).activeCalls : Int) ≤ 0
        · rw [if_pos hs]
          exact pof_refl _
        · rw [if_neg hs]
          by_cases hemp : (({ s with userStates := (statesModify u
              (fun st => { refreshMax env u st with isProcessing := true })
              s.userStates) } : SysState).campaigns.filter
                (userActiveOutbound u)).isEmpty = true
          · rw [if_pos hemp]
            exact pof_refl _
          · rw [if_neg hemp]
            have hloop := pof_processLoop env out now
              (List.map (fun c => c.id) (List.filter (userActiveOutbound u) s.campaigns))
              ((((refreshMax env u st0).maxConcurrentCalls : Int) -
                ((refreshMax env u st0).activeCalls : Int)).toNat)
              ((((refreshMax env u st0).maxConcurrentCalls : Int) -
                ((refreshMax env u st0).activeCalls : Int)).toNat *
                (List.map (fun c => c.id)
                  (List.filter (userActiveOutbound u) s.campaigns)).length)
              0 0
              { s with userStates := (statesModify u
                  (fun st => { refreshMax env u st with isProcessing := true })
                  s.userStates) }
            dsimp only at hloop
            split
            · next hcl =>
                dsimp only
                exact pof_trans hloop (pof_checkAndCompleteCampaigns _ now _)
            · next hcl =>
                dsimp only
                exact hloop

end Talkrix

namespace Talkrix

theorem pof_onCallEnded (env : Env) (out : Nat → Nat → InitOutcome)
    (cId : Nat) (key : TrackKey) (now : Int) (s : SysState) :
    PendingOnlyFrom s.campaigns (onCallEnded env out cId key now s).campaigns := by
  unfold onCallEnded
  dsimp only
  cases hf : s.campaigns.find? (fun c => c.id = cId) with
  | none => exact pof_refl _
  | some camp =>
      dsimp only
      by_cases hst : ((s.userStates.find? (fun st => st.userId = camp.userId)).isSome = true)
      · simp only [if_pos hst]
        by_cases hdone : (camp.contacts.countP (fun c => c.callStatus = CallStatus.pending) = 0 &&
            camp.contacts.countP (fun c => c.callStatus = CallStatus.inProgress) = 0 : Bool) = true
        · rw [if_pos hdone]
          exact pof_completeCampaign cId camp.userId now _
        · rw [if_neg hdone]
          exact pof_refl _
      · simp only [if_neg hst]
        by_cases hdone : (camp.contacts.countP (fun c => c.callStatus = CallStatus.pending) = 0 &&
            camp.contacts.countP (fun c => c.callStatus = CallStatus.inProgress) = 0 : Bool) = true
        · rw [if_pos hdone]
          exact pof_completeCampaign cId camp.userId now _
        · rw [if_neg hdone]
          by_cases hempty : ((s.campaigns.filter (fun c =>
              c.userId = camp.userId && c.status = CampaignStatus.active)).isEmpty = true)
          · rw [if_pos hempty]
            exact pof_refl _
          · rw [if_neg hempty]
            have h1 := initializeUserState_campaigns env camp.userId
              (s.campaigns.filter (fun c =>
                c.userId = camp.userId && c.status = CampaignStatus.active))
              { s with tracker := trackerDelete key s.tracker }
            have h2 := pof_processUserCalls env out now camp.userId
              (initializeUserState env camp.userId
                (s.campaigns.filter (fun c =>
                  c.userId = camp.userId && c.status = CampaignStatus.active))
                { s with tracker := trackerDelete key s.tracker })
            rw [h1] at h2
            exact h2

end Talkrix

namespace Talkrix

theorem pof_updateCampaignContactStatus (env : Env) (out : Nat → Nat → InitOutcome)
    (campaignId : Nat) (callId : String) (endReason : Option String)
    (durationSeconds : Int) (now : Int) (s : SysState) :
    PendingOnlyFrom s.campaigns
      (updateCampaignContactStatus env out campaignId callId endReason
        durationSeconds now s).campaigns := by
  unfold updateCampaignContactStatus
  dsimp only
  have hupd := pof_updateByCallId campaignId callId
    (mapEndReasonToStatus endReason) now (some durationSeconds)
    (mapEndReasonToStatus_ne_pending endReason) s.campaigns
  by_cases hr : ((updateContactCallStatusByCallId campaignId callId
      (mapEndReasonToStatus endReason) now (some durationSeconds) s.campaigns).2 = true)
  · rw [if_pos hr]
    refine pof_trans hupd ?_
    exact pof_onCallEnded env out campaignId (TrackKey.engine callId) now _
  · rw [if_neg hr]
    exact hupd

theorem pof_handleCallEnded (env : Env) (out : Nat → Nat → InitOutcome)
    (ev : EngineEndedEvent) (now : Int) (s : SysState) :
    PendingOnlyFrom s.campaigns (handleCallEnded env out ev now s).campaigns := by
  unfold handleCallEnded
  cases hfr : s.histories.find? (fun r => r.talkrixCallId = ev.callId) with
  | none => exact pof_refl _
  | some row =>
      dsimp only
      cases hmeta : row.metaCampaignId with
      | none => exact pof_refl _
      | some campId =>
          dsimp only
          exact pof_updateCampaignContactStatus env out campId ev.callId
            ev.endReason (engineDurationSeconds ev row.startedAt) now _

theorem pof_handleTwilioCallEnded (env : Env) (out : Nat → Nat → InitOutcome)
    (p : TwilioEndedPayload) (campaignId contactId hId : Option Nat)
    (now : Int) (s : SysState) :
    PendingOnlyFrom s.campaigns
      (handleTwilioCallEnded env out p campaignId contactId hId now s).campaigns := by
  unfold handleTwilioCallEnded
  dsimp only
  cases campaignId with
  | none =>
      cases hId <;> exact pof_refl _
  | some cId =>
      cases contactId with
      | none => cases hId <;> exact pof_refl _
      | some ctId =>
          cases hId with
          | none =>
              dsimp only
              refine pof_trans (pof_updateContactCallStatus cId ctId
                (twilioMap p).1 now none (some p.callDuration)
                (some ("Twilio: " ++ twilioStatusText p.callStatus ++
                  match p.errorMessage with
                  | some msg => if msg ≠ "" then " - " ++ msg else ""
                  | none => ""))
                (twilioMap_fst_ne_pending p) s.campaigns) ?_
              exact pof_onCallEnded env out cId (TrackKey.engine p.callSid) now _
          | some hid =>
              dsimp only
              refine pof_trans (pof_updateContactCallStatus cId ctId
                (twilioMap p).1 now none (some p.callDuration)
                (some ("Twilio: " ++ twilioStatusText p.callStatus ++
                  match p.errorMessage with
                  | some msg => if msg ≠ "" then " - " ++ msg else ""
                  | none => ""))
                (twilioMap_fst_ne_pending p) _) ?_
              exact pof_onCallEnded env out cId (TrackKey.engine p.callSid) now _

end Talkrix

namespace Talkrix


/-- C4 (amended): no modeled operation other than `resetUserCallState`
ever writes the `pending` contact status — every contact that is `pending`
after an operation traces back to an already-`pending` contact with the
same contact id in the campaign with the same id — so a contact never
*returns* to `pending`.  Terminal statuses, however, are not stable: see
the counterexample, where a late Twilio callback overwrites a `completed`
contact with `failed`. -/
theorem C4_no_return_to_pending (env : Env) (out : Nat → Nat → InitOutcome)
    (now : Int) (op : Op) (s : SysState) :
    PendingOnlyFrom s.campaigns (applyOp env out now op s).campaigns := by
  cases op with
  | engineEnded ev => exact pof_handleCallEnded env out ev now s
  | twilioEnded p cid ctid hid =>
      exact pof_handleTwilioCallEnded env out p cid ctid hid now s
  | reaperTick => exact pof_checkAndCleanupStaleCalls now s
  | stopTick tenv => exact pof_stopPhase tenv now s
  | initUser u cs =>
      show PendingOnlyFrom s.campaigns (initializeUserState env u cs s).campaigns
      rw [initializeUserState_campaigns]
      exact pof_refl _
  | userCalls u => exact pof_processUserCalls env out now u s
  | callEnded cId key => exact pof_onCallEnded env out cId key now s
  | adminStatus cId st => exact pof_updateStatusCampaign cId st now s.campaigns


/-- C4 counterexample: a terminal status is not stable — the Twilio
status-callback channel overwrites the `completed` contact 10 of campaign
1 with `failed` (`busy` maps to `failed`), a terminal-to-different-terminal
transition the claim rules out. -/
theorem C4_counterexample :
    statusAt stC4.campaigns 1 10 = some CallStatus.completed ∧
    statusAt (applyOp envC3 outNever 300
        (Op.twilioEnded twBusy (some 1) (some 10) none) stC4).campaigns 1 10 =
      some CallStatus.failed := by
  refine ⟨by decide, by decide⟩

end Talkrix
